import Mathlib

/-!
Verification of the cross-document analysis engine and job orchestration
state machine of the repository, as a shallow embedding in Lean 4.

The embedding follows `src/agents/cross_document_analyzer.py`,
`src/usecases/analysis.py`, `src/schemas.py` and `src/enums.py`.
Python strings are modelled as Lean `String` (lists of characters);
`str | None` fields are `Option String`; Python `float` arithmetic is
modelled with exact rationals; Python `datetime.date` is a year/month/day
record with lexicographic order.
-/

namespace S2P

/-! ## Enumerations (src/enums.py) -/

inductive AnalysisStatus where
  | PENDING | RUNNING | SUCCEEDED | FAILED
  deriving DecidableEq, Repr

inductive AnalysisDecision where
  | APROVADO | REPROVADO
  deriving DecidableEq, Repr

inductive InconsistencySeverity where
  | BLOCKER | WARN
  deriving DecidableEq, Repr

/-! ## Character-level helpers

Python `str.lower()` is a per-character Unicode lowercase map; the
fragment relevant to this code base (ASCII letters plus the accented
Portuguese letters appearing in `_normalize_name`'s table) is embedded
as an explicit table.  Characters outside the table are unchanged. -/

def lowerTable : List (Char × Char) :=
  [('A','a'),('B','b'),('C','c'),('D','d'),('E','e'),('F','f'),('G','g'),
   ('H','h'),('I','i'),('J','j'),('K','k'),('L','l'),('M','m'),('N','n'),
   ('O','o'),('P','p'),('Q','q'),('R','r'),('S','s'),('T','t'),('U','u'),
   ('V','v'),('W','w'),('X','x'),('Y','y'),('Z','z'),
   ('Á','á'),('À','à'),('Ã','ã'),('Â','â'),('É','é'),('Ê','ê'),('Í','í'),
   ('Ó','ó'),('Ô','ô'),('Õ','õ'),('Ú','ú'),('Ü','ü'),('Ç','ç')]

def lowerChar (c : Char) : Char :=
  match lowerTable.find? (fun p => p.1 = c) with
  | some p => p.2
  | none => c

/-- Whitespace characters recognised by Python `str.split()`. -/
def isSpacePy (c : Char) : Bool :=
  c = ' ' || c = '\t' || c = '\n' || c = '\r' || c = '\x0b' || c = '\x0c'

/-- Python `str.isdigit()` restricted to ASCII decimal digits (the only
digits this code base manipulates). -/
def isDigitPy (c : Char) : Bool := c.isDigit

/-! ## Whitespace splitting and joining

`pySplit` models Python `str.split()` (split on runs of whitespace,
dropping empty chunks); `joinSpace` models `" ".join(...)`. -/

def splitStep (c : Char) (acc : List (List Char)) : List (List Char) :=
  if isSpacePy c then [] :: acc
  else
    match acc with
    | [] => [[c]]
    | t :: ts => (c :: t) :: ts

def splitAux (l : List Char) : List (List Char) :=
  l.foldr splitStep []

def pySplit (l : List Char) : List (List Char) :=
  (splitAux l).filter (fun t => decide (t ≠ []))

def joinSpace : List (List Char) → List Char
  | [] => []
  | [t] => t
  | t :: ts => t ++ ' ' :: joinSpace ts

/-! ## Normalizers (src/agents/cross_document_analyzer.py, lines 88-125) -/

/-- Sequential application of single-character `str.replace` calls, one
per table entry, in table order (the character is threaded through the
whole table, as the Python loop rewrites the string once per entry). -/
def replAll (table : List (Char × Char)) (c : Char) : Char :=
  match table with
  | [] => c
  | (k, v) :: rest => replAll rest (if c = k then v else c)

/-- Replacement table of `_normalize_name`, in source order. -/
def replTable : List (Char × Char) :=
  [('á','a'),('à','a'),('ã','a'),('â','a'),
   ('é','e'),('ê','e'),
   ('í','i'),
   ('ó','o'),('ô','o'),('õ','o'),
   ('ú','u'),('ü','u'),
   ('ç','c')]

/-- Embedding of `_normalize_cnpj`: keep only digits; empty on falsy input. -/
def normalize_cnpj : Option String → String
  | none => ""
  | some s => if s = "" then "" else String.mk (s.data.filter isDigitPy)

/-- Embedding of `_normalize_cpf` (same body as `_normalize_cnpj`). -/
def normalize_cpf : Option String → String
  | none => ""
  | some s => if s = "" then "" else String.mk (s.data.filter isDigitPy)

/-- Embedding of `_normalize_text`: `" ".join(text.lower().split())`. -/
def normalize_text : Option String → String
  | none => ""
  | some s =>
      if s = "" then ""
      else String.mk (joinSpace (pySplit (s.data.map lowerChar)))

/-- Embedding of `_normalize_name`: lowercase, collapse whitespace, then
run the accent-replacement loop over the result. -/
def normalize_name : Option String → String
  | none => ""
  | some s =>
      if s = "" then ""
      else String.mk ((joinSpace (pySplit (s.data.map lowerChar))).map (replAll replTable))

/-- On a table whose targets are never sources, the sequential replacement
loop acts as a single simultaneous table lookup per character. -/
def tableMap (table : List (Char × Char)) (c : Char) : Char :=
  match table.find? (fun p => p.1 = c) with
  | some p => p.2
  | none => c

/-! ## Idempotence infrastructure for the text normalizers -/

/-- Core of `_normalize_text` on character lists. -/
def ntCore (l : List Char) : List Char := joinSpace (pySplit (l.map lowerChar))

/-- Core of `_normalize_name` on character lists. -/
def nnCore (l : List Char) : List Char := (ntCore l).map (replAll replTable)

/-! ## Claim C8: normalize_name versus the spec's transliteration table -/

/-- Transliteration table exactly as listed by the spec sentence
(á, ã, â, é, ê, í, ó, ô, õ, ú, ü, ç — note: no à). -/
def specAccentTableClaim : List (Char × Char) :=
  [('á','a'),('ã','a'),('â','a'),
   ('é','e'),('ê','e'),
   ('í','i'),
   ('ó','o'),('ô','o'),('õ','o'),
   ('ú','u'),('ü','u'),
   ('ç','c')]

/-- Spec table amended with the entry à→a that the source table also has. -/
def specAccentTableAmended : List (Char × Char) :=
  [('á','a'),('à','a'),('ã','a'),('â','a'),
   ('é','e'),('ê','e'),
   ('í','i'),
   ('ó','o'),('ô','o'),('õ','o'),
   ('ú','u'),('ü','u'),
   ('ç','c')]

/-- Modelled from the spec wording: the result of `normalize_text` with
exactly the table's characters replaced by their ASCII equivalents and
every other character unchanged (a simultaneous per-character lookup). -/
def normalize_name_by_table (table : List (Char × Char)) (x : Option String) : String :=
  String.mk ((normalize_text x).data.map (tableMap table))

/-! ## Dates

Python `datetime.date` with lexicographic comparison, plus the
`dateutil.relativedelta(months=6)` subtraction used by the six-month
staleness rules. -/

structure PyDate where
  year : Nat
  month : Nat
  day : Nat
  deriving DecidableEq, Repr

def isLeapYear (y : Nat) : Bool :=
  (y % 4 = 0 && y % 100 ≠ 0) || y % 400 = 0

def daysInMonth (y m : Nat) : Nat :=
  if m = 2 then (if isLeapYear y then 29 else 28)
  else if m = 4 ∨ m = 6 ∨ m = 9 ∨ m = 11 then 30
  else 31

/-- Lexicographic order on dates, as Python compares `date` values. -/
def dateLt (a b : PyDate) : Prop :=
  a.year < b.year ∨
    (a.year = b.year ∧ (a.month < b.month ∨ (a.month = b.month ∧ a.day < b.day)))

instance : DecidablePred (fun p : PyDate × PyDate => dateLt p.1 p.2) := by
  intro p; unfold dateLt; infer_instance

instance (a b : PyDate) : Decidable (dateLt a b) := by
  unfold dateLt; infer_instance

/-- Embedding of `reference_date - relativedelta(months=6)`: subtract six
from the month with a year borrow, then clamp the day to the length of
the resulting month. -/
def subSixMonths (d : PyDate) : PyDate :=
  let ym : Nat × Nat := if 7 ≤ d.month then (d.year, d.month - 6) else (d.year - 1, d.month + 6)
  ⟨ym.1, ym.2, min d.day (daysInMonth ym.1 ym.2)⟩

/-- Calendar predecessor of a date (used to express the boundary claim
that one day before the cutoff is stale). -/
def prevDay (d : PyDate) : PyDate :=
  if 2 ≤ d.day then ⟨d.year, d.month, d.day - 1⟩
  else if 2 ≤ d.month then ⟨d.year, d.month - 1, daysInMonth d.year (d.month - 1)⟩
  else ⟨d.year - 1, 12, 31⟩

def ValidDate (d : PyDate) : Prop :=
  1 ≤ d.year ∧ 1 ≤ d.month ∧ d.month ≤ 12 ∧ 1 ≤ d.day ∧ d.day ≤ daysInMonth d.year d.month

instance (d : PyDate) : Decidable (ValidDate d) := by
  unfold ValidDate; infer_instance

def pad2 (n : Nat) : String := if n < 10 then "0" ++ toString n else toString n

def pad4 (n : Nat) : String :=
  if n < 10 then "000" ++ toString n
  else if n < 100 then "00" ++ toString n
  else if n < 1000 then "0" ++ toString n
  else toString n

/-- Python `str(date)`: ISO `YYYY-MM-DD`. -/
def dateToStr (d : PyDate) : String :=
  pad4 d.year ++ "-" ++ pad2 d.month ++ "-" ++ pad2 d.day

/-! ## Document records

Only the fields read by `deterministic_checks_node` / `make_decision_node`
are embedded; the remaining extractor fields are never consumed by these
nodes.  `nome` is a required `str` in the source models, the other string
fields are `str | None`. -/

/-- Python truthiness of a `str | None` value. -/
def truthy : Option String → Bool
  | none => false
  | some s => s ≠ ""

structure Endereco where
  cidade : Option String
  uf : Option String
  deriving DecidableEq, Repr

structure Socio where
  nome : String
  cpf : Option String
  deriving DecidableEq, Repr

structure ContratoSocialData where
  razao_social : Option String
  cnpj : Option String
  sede : Option Endereco
  socios : List Socio
  deriving DecidableEq, Repr

structure EnderecoEstabelecimento where
  municipio : Option String
  uf : Option String
  deriving DecidableEq, Repr

structure SocioQSA where
  nome : String
  cpf_cnpj : Option String
  deriving DecidableEq, Repr

structure CartaoCNPJData where
  cnpj : Option String
  razao_social : Option String
  data_situacao_cadastral : Option PyDate
  endereco_estabelecimento : Option EnderecoEstabelecimento
  qsa : List SocioQSA
  deriving DecidableEq, Repr

structure CertidaoNegativaFederalData where
  cnpj : Option String
  razao_social : Option String
  data_emissao : Option PyDate
  data_validade : Option PyDate
  deriving DecidableEq, Repr

structure Inconsistency where
  code : String
  severity : InconsistencySeverity
  message : String
  field : Option String
  documents : List String
  values : List String
  deriving DecidableEq, Repr

/-! ## Python dictionaries

Insertion-ordered string dictionaries: inserting an existing key
overwrites the value in place, a new key is appended.  Iteration order is
the list order. -/

def dictInsert (d : List (String × String)) (k v : String) : List (String × String) :=
  if d.any (fun p => p.1 = k) then d.map (fun p => if p.1 = k then (k, v) else p)
  else d ++ [(k, v)]

def dictOf (ps : List (String × String)) : List (String × String) :=
  ps.foldl (fun d p => dictInsert d p.1 p.2) []

def dictGet? (d : List (String × String)) (k : String) : Option String :=
  (d.find? (fun p => p.1 = k)).map (fun p => p.2)

/-! ## The deterministic checks (deterministic_checks_node, lines 128-305) -/

/-- The `(document_type, normalized tax id)` pairs collected by the CNPJ
rule, in source order (fixed priority CONTRATO_SOCIAL, CARTAO_CNPJ,
CERTIDAO_NEGATIVA, keeping only documents with a truthy tax id). -/
def cnpjEntries (contrato : Option ContratoSocialData) (cartao : Option CartaoCNPJData)
    (certidao : Option CertidaoNegativaFederalData) : List (String × String) :=
  (match contrato with
   | some c => if truthy c.cnpj then [("CONTRATO_SOCIAL", normalize_cnpj c.cnpj)] else []
   | none => []) ++
  (match cartao with
   | some c => if truthy c.cnpj then [("CARTAO_CNPJ", normalize_cnpj c.cnpj)] else []
   | none => []) ++
  (match certidao with
   | some c => if truthy c.cnpj then [("CERTIDAO_NEGATIVA", normalize_cnpj c.cnpj)] else []
   | none => [])

/-- The `(document_type, normalized company name)` pairs of the
razão-social rule. -/
def razaoEntries (contrato : Option ContratoSocialData) (cartao : Option CartaoCNPJData)
    (certidao : Option CertidaoNegativaFederalData) : List (String × String) :=
  (match contrato with
   | some c => if truthy c.razao_social then
       [("CONTRATO_SOCIAL", normalize_text c.razao_social)] else []
   | none => []) ++
  (match cartao with
   | some c => if truthy c.razao_social then
       [("CARTAO_CNPJ", normalize_text c.razao_social)] else []
   | none => []) ++
  (match certidao with
   | some c => if truthy c.razao_social then
       [("CERTIDAO_NEGATIVA", normalize_text c.razao_social)] else []
   | none => [])

def mkCnpjMismatch (refDoc refVal doc val : String) : Inconsistency :=
  { code := "cnpj_mismatch"
  , severity := .BLOCKER
  , message := "CNPJ divergente entre " ++ refDoc ++ " e " ++ doc ++ "."
  , field := some "cnpj"
  , documents := [refDoc, doc]
  , values := [refVal, val] }

def mkRazaoMismatch (refDoc refVal doc val : String) : Inconsistency :=
  { code := "razao_social_mismatch"
  , severity := .BLOCKER
  , message := "Razão social divergente entre " ++ refDoc ++ " e " ++ doc ++ "."
  , field := some "razao_social"
  , documents := [refDoc, doc]
  , values := [refVal, val] }

/-- Shared shape of the CNPJ and razão-social loops: when at least two
entries were collected, compare every subsequent entry against the first
and emit one finding per differing value. -/
def pairwiseMismatch (entries : List (String × String))
    (mk : String → String → String → String → Inconsistency) : List Inconsistency :=
  if 2 ≤ entries.length then
    match entries with
    | [] => []
    | (refDoc, refVal) :: rest =>
        rest.filterMap (fun p => if p.2 ≠ refVal then some (mk refDoc refVal p.1 p.2) else none)
  else []

def mkCertificateExpired (dv : PyDate) : Inconsistency :=
  { code := "certificate_expired"
  , severity := .BLOCKER
  , message := "Certidão negativa vencida (validade: " ++ dateToStr dv ++ ")."
  , field := some "data_validade"
  , documents := ["CERTIDAO_NEGATIVA"]
  , values := [dateToStr dv] }

def certificateExpiredFindings (certidao : Option CertidaoNegativaFederalData)
    (reference_date : PyDate) : List Inconsistency :=
  match certidao with
  | some cert =>
      match cert.data_validade with
      | some dv => if dateLt dv reference_date then [mkCertificateExpired dv] else []
      | none => []
  | none => []

def mkCertStale (de : PyDate) : Inconsistency :=
  { code := "document_older_than_6_months"
  , severity := .BLOCKER
  , message := "Certidão negativa emitida há mais de 6 meses (emissão: " ++ dateToStr de ++ ")."
  , field := some "data_emissao"
  , documents := ["CERTIDAO_NEGATIVA"]
  , values := [dateToStr de] }

def certStaleFindings (certidao : Option CertidaoNegativaFederalData)
    (six_months_ago : PyDate) : List Inconsistency :=
  match certidao with
  | some cert =>
      match cert.data_emissao with
      | some de => if dateLt de six_months_ago then [mkCertStale de] else []
      | none => []
  | none => []

def mkCardStale (dd : PyDate) : Inconsistency :=
  { code := "document_older_than_6_months"
  , severity := .WARN
  , message := "Cartão CNPJ com situação cadastral desatualizada (data: " ++ dateToStr dd ++ ")."
  , field := some "data_situacao_cadastral"
  , documents := ["CARTAO_CNPJ"]
  , values := [dateToStr dd] }

def cardStaleFindings (cartao : Option CartaoCNPJData)
    (six_months_ago : PyDate) : List Inconsistency :=
  match cartao with
  | some card =>
      match card.data_situacao_cadastral with
      | some dd => if dateLt dd six_months_ago then [mkCardStale dd] else []
      | none => []
  | none => []

def mkEnderecoMismatch (cc uc ck uk : String) : Inconsistency :=
  { code := "endereco_mismatch"
  , severity := .WARN
  , message := "Endereço divergente entre Contrato Social (" ++ cc ++ "/" ++ uc ++
      ") e Cartão CNPJ (" ++ ck ++ "/" ++ uk ++ ")."
  , field := some "endereco"
  , documents := ["CONTRATO_SOCIAL", "CARTAO_CNPJ"]
  , values := [cc ++ "/" ++ uc, ck ++ "/" ++ uk] }

def enderecoFindings (contrato : Option ContratoSocialData)
    (cartao : Option CartaoCNPJData) : List Inconsistency :=
  match contrato, cartao with
  | some c, some k =>
      match c.sede, k.endereco_estabelecimento with
      | some sede, some endereco =>
          let cidade_contrato := normalize_text sede.cidade
          let uf_contrato := normalize_text sede.uf
          let cidade_cartao := normalize_text endereco.municipio
          let uf_cartao := normalize_text endereco.uf
          if cidade_contrato ≠ "" ∧ cidade_cartao ≠ "" then
            if cidade_contrato ≠ cidade_cartao ∨ uf_contrato ≠ uf_cartao then
              [mkEnderecoMismatch cidade_contrato uf_contrato cidade_cartao uf_cartao]
            else []
          else []
      | _, _ => []
  | _, _ => []

/-- Partners of the articles of incorporation with both fields truthy,
keyed by normalized name (dict insertion overwrites duplicates). -/
def contratoSociosDict (c : ContratoSocialData) : List (String × String) :=
  dictOf (c.socios.filterMap (fun socio =>
    if socio.nome ≠ "" ∧ truthy socio.cpf then
      some (normalize_name (some socio.nome), normalize_cpf socio.cpf)
    else none))

def qsaSociosDict (k : CartaoCNPJData) : List (String × String) :=
  dictOf (k.qsa.filterMap (fun socio =>
    if socio.nome ≠ "" ∧ truthy socio.cpf_cnpj then
      some (normalize_name (some socio.nome), normalize_cpf socio.cpf_cnpj)
    else none))

/-- First partner of the articles roster whose normalized name matches,
falling back to the normalized name (the `next(..., nome_contrato)` call). -/
def origName (socios : List Socio) (nomeNorm : String) : String :=
  ((socios.find? (fun s => normalize_name (some s.nome) = nomeNorm)).map
    (fun s => s.nome)).getD nomeNorm

def mkSocioCpfMismatch (nomeOriginal cpfContrato cpfQsa : String) : Inconsistency :=
  { code := "socio_cpf_mismatch"
  , severity := .BLOCKER
  , message := "CPF divergente para o sócio \x27" ++ nomeOriginal ++
      "\x27 entre Contrato Social e Cartão CNPJ."
  , field := some "socio_cpf"
  , documents := ["CONTRATO_SOCIAL", "CARTAO_CNPJ"]
  , values := [cpfContrato, cpfQsa] }

def socioCpfFindings (contrato : Option ContratoSocialData)
    (cartao : Option CartaoCNPJData) : List Inconsistency :=
  match contrato, cartao with
  | some c, some k =>
      if c.socios ≠ [] ∧ k.qsa ≠ [] then
        (contratoSociosDict c).flatMap (fun pc =>
          (qsaSociosDict k).filterMap (fun pq =>
            if pc.1 = pq.1 then
              if pc.2 ≠ pq.2 then
                some (mkSocioCpfMismatch (origName c.socios pc.1) pc.2 pq.2)
              else none
            else none))
      else []
  | _, _ => []

/-- Full embedding of `deterministic_checks_node`: the seven rules, in the
source's order of appends to the `inconsistencies` list. -/
def deterministic_checks (contrato : Option ContratoSocialData)
    (cartao : Option CartaoCNPJData) (certidao : Option CertidaoNegativaFederalData)
    (reference_date : PyDate) : List Inconsistency :=
  let six_months_ago := subSixMonths reference_date
  pairwiseMismatch (cnpjEntries contrato cartao certidao) mkCnpjMismatch
    ++ pairwiseMismatch (razaoEntries contrato cartao certidao) mkRazaoMismatch
    ++ certificateExpiredFindings certidao reference_date
    ++ certStaleFindings certidao six_months_ago
    ++ cardStaleFindings cartao six_months_ago
    ++ enderecoFindings contrato cartao
    ++ socioCpfFindings contrato cartao

/-! ## The decision combinator (make_decision_node, lines 308-333)

Python float arithmetic is modelled with exact rationals. -/

def docsAvailable (contrato : Option ContratoSocialData) (cartao : Option CartaoCNPJData)
    (certidao : Option CertidaoNegativaFederalData) : Nat :=
  (if contrato.isSome then 1 else 0) + (if cartao.isSome then 1 else 0) +
    (if certidao.isSome then 1 else 0)

def make_decision (contrato : Option ContratoSocialData) (cartao : Option CartaoCNPJData)
    (certidao : Option CertidaoNegativaFederalData)
    (inconsistencies : Option (List Inconsistency)) : AnalysisDecision × ℚ :=
  let incs := inconsistencies.getD []
  let has_blocker := incs.any (fun inc => inc.severity = InconsistencySeverity.BLOCKER)
  let decision := if has_blocker then AnalysisDecision.REPROVADO else AnalysisDecision.APROVADO
  let base_confidence : ℚ := (docsAvailable contrato cartao certidao : ℚ) / 3
  let penalty : ℚ := (incs.length : ℚ) * (1 / 10)
  let confidence := max 0 (min 1 (base_confidence - penalty))
  (decision, confidence)

/-! ## Job orchestration state machine (src/usecases/analysis.py)

`AnalyzeDocuments.handle` is embedded as a function of the job lookup
result and of the outcome of the processing pipeline (the body of the
`try` block after the RUNNING transition: extraction, cross-document
analysis and persistence, any of which may raise).  Session commits are
the persistence boundary and are modelled as always succeeding; the
returned list collects the committed job states, in commit order. -/

/-- A Python exception as seen by `_mark_job_failed`: an `ApplicationError`
carries a declared `code` and a `details` dict, any exception carries its
type name and its message (`str(error)`). -/
structure Exc where
  isApplicationError : Bool
  appCode : String
  appDetails : List (String × String)
  typeName : String
  message : String
  deriving DecidableEq, Repr

/-- Error code captured by `_mark_job_failed`: the declared code of an
`ApplicationError`, else the exception's type name. -/
def errorCodeOf (e : Exc) : String :=
  if e.isApplicationError then e.appCode else e.typeName

/-- The `error_details` dict written by `_mark_job_failed`:
`{"error_type": ..., "error_code": ..., **error_details}` (entries of the
exception's own details overwrite the first two when keys collide). -/
def failErrorDetails (e : Exc) : List (String × String) :=
  dictOf ([("error_type", e.typeName), ("error_code", errorCodeOf e)] ++
    (if e.isApplicationError then e.appDetails else []))

structure AnalysisJob where
  status : AnalysisStatus
  decision : Option AnalysisDecision
  error_message : Option String
  error_details : Option (List (String × String))
  finished_at : Option Nat
  updated_at : Option Nat
  deriving DecidableEq, Repr

/-- Result shape consumed by `_mark_job_succeeded` (only the decision of
the cross-document analysis result is persisted onto the job). -/
structure CrossResult where
  decision : AnalysisDecision
  deriving DecidableEq, Repr

def statusValue : AnalysisStatus → String
  | .PENDING => "PENDING"
  | .RUNNING => "RUNNING"
  | .SUCCEEDED => "SUCCEEDED"
  | .FAILED => "FAILED"

def decisionValue : AnalysisDecision → String
  | .APROVADO => "APROVADO"
  | .REPROVADO => "REPROVADO"

/-- Return dicts of `_mark_job_succeeded` / `_mark_job_failed`. -/
inductive RunSummary where
  | succeeded (job_id : String) (status : String) (decision : Option String)
  | failed (job_id : String) (status : String) (error : String)
  deriving DecidableEq, Repr

/-- The `AnalysisJobNotFoundError` raised by `_load_analysis_job`. -/
def analysisJobNotFound (jobId : String) : Exc :=
  { isApplicationError := true
  , appCode := "analysis_job_not_found"
  , appDetails := [("resource_type", "AnalysisJob"), ("resource_id", jobId)]
  , typeName := "AnalysisJobNotFoundError"
  , message := "Analysis job not found" }

def markJobRunning (job : AnalysisJob) (t : Nat) : AnalysisJob :=
  { job with status := .RUNNING, updated_at := some t }

def markJobSucceeded (job : AnalysisJob) (r : CrossResult) (t : Nat) : AnalysisJob :=
  { job with decision := some r.decision, status := .SUCCEEDED
           , finished_at := some t, updated_at := some t }

def markJobFailed (job : AnalysisJob) (e : Exc) (t : Nat) : AnalysisJob :=
  { job with status := .FAILED
           , error_message := some e.message
           , error_details := some (failErrorDetails e)
           , finished_at := some t, updated_at := some t }

/-- Embedding of `AnalyzeDocuments.handle`: look the job up (raising
`AnalysisJobNotFoundError` past the caller when absent), commit the
RUNNING transition, then run the pipeline; its success commits the
SUCCEEDED state, any exception it raises is caught and commits the FAILED
state.  Returns the committed job states and the call's outcome. -/
def analyzeDocumentsHandle (jobId : String) (lookup : Option AnalysisJob)
    (pipeline : Except Exc CrossResult) (t : Nat) :
    List AnalysisJob × Except Exc RunSummary :=
  match lookup with
  | none => ([], .error (analysisJobNotFound jobId))
  | some job =>
      let j1 := markJobRunning job t
      match pipeline with
      | .ok r =>
          let j2 := markJobSucceeded j1 r t
          ([j1, j2], .ok (.succeeded jobId (statusValue j2.status)
            (some (decisionValue r.decision))))
      | .error e =>
          let j2 := markJobFailed j1 e t
          ([j1, j2], .ok (.failed jobId (statusValue j2.status) e.message))

/-! ## Job-creation input validation (src/schemas.py, AnalysisCreateInput) -/

/-- An uploaded file; as a Python object it is always truthy, so only its
presence matters to the validator. -/
structure UploadFile where
  filename : String
  deriving DecidableEq, Repr

/-- Raw form fields of a job-creation request; `none` in `company_name`
means the required field was absent from the request. -/
structure AnalysisCreateRaw where
  company_name : Option String
  contrato_social : Option UploadFile
  cartao_cnpj : Option UploadFile
  certidao_negativa : Option UploadFile
  deriving DecidableEq, Repr

structure AnalysisCreateInput where
  company_name : String
  contrato_social : Option UploadFile
  cartao_cnpj : Option UploadFile
  certidao_negativa : Option UploadFile
  deriving DecidableEq, Repr

/-- Pydantic validation of `AnalysisCreateInput`: `company_name : str` is
required but carries no further constraint, then the after-validator
rejects the request when none of the three uploads is provided. -/
def validateAnalysisCreate (raw : AnalysisCreateRaw) : Except String AnalysisCreateInput :=
  match raw.company_name with
  | none => .error "Field required"
  | some name =>
      if raw.contrato_social.isSome || raw.cartao_cnpj.isSome ||
          raw.certidao_negativa.isSome then
        .ok ⟨name, raw.contrato_social, raw.cartao_cnpj, raw.certidao_negativa⟩
      else .error "At least one document must be provided."

/-- A freshly created job: PENDING, no decision, no error, not finished. -/
def pendingJob : AnalysisJob := ⟨.PENDING, none, none, none, none, none⟩

/-- An ApplicationError whose own details dict binds the key error_code. -/
def shadowExc : Exc :=
  ⟨true, "declared_code", [("error_code", "shadow")], "ApplicationError", "boom"⟩

/-- An ordinary (non-ApplicationError) exception. -/
def plainExc : Exc := ⟨false, "", [], "ValueError", "boom"⟩

/-! ## Claim C3: status monotonicity and field/status coupling -/

/-- A job as the intake creates it: PENDING with nothing else set. -/
def PristineJob (job : AnalysisJob) : Prop :=
  job.status = .PENDING ∧ job.decision = none ∧ job.error_message = none ∧
    job.error_details = none ∧ job.finished_at = none

instance (job : AnalysisJob) : Decidable (PristineJob job) := by
  unfold PristineJob; infer_instance

/-- The transitions the spec allows: PENDING to RUNNING, RUNNING to a
terminal state; no transition leaves a terminal state. -/
def allowedTransition (a b : AnalysisStatus) : Prop :=
  (a = .PENDING ∧ b = .RUNNING) ∨
    (a = .RUNNING ∧ (b = .SUCCEEDED ∨ b = .FAILED))

instance (a b : AnalysisStatus) : Decidable (allowedTransition a b) := by
  unfold allowedTransition; infer_instance

/-! ## Lemmas about the character helpers -/

theorem lowerTarget_not_source :
    ∀ p ∈ lowerTable, lowerTable.find? (fun q => q.1 = p.2) = none := by decide

theorem lowerChar_idem (c : Char) : lowerChar (lowerChar c) = lowerChar c := by
  cases h : lowerTable.find? (fun p => p.1 = c) with
  | none => simp [lowerChar, h]
  | some p =>
      have hp : p ∈ lowerTable := List.mem_of_find?_eq_some h
      simp [lowerChar, h, lowerTarget_not_source p hp]

theorem replAll_nochange {table : List (Char × Char)} {c : Char}
    (h : ∀ p ∈ table, c ≠ p.1) : replAll table c = c := by
  induction table with
  | nil => rfl
  | cons kv rest ih =>
      obtain ⟨k, v⟩ := kv
      have hk : c ≠ k := h (k, v) (List.mem_cons_self _ _)
      simp only [replAll, if_neg hk]
      exact ih (fun p hp => h p (List.mem_cons_of_mem _ hp))

theorem replAll_pred {P : Char → Prop} {table : List (Char × Char)} {c : Char}
    (hc : P c) (ht : ∀ p ∈ table, P p.2) : P (replAll table c) := by
  induction table generalizing c with
  | nil => exact hc
  | cons kv rest ih =>
      obtain ⟨k, v⟩ := kv
      simp only [replAll]
      by_cases hck : c = k
      · simp only [if_pos hck]
        exact ih (ht (k, v) (List.mem_cons_self _ _))
          (fun p hp => ht p (List.mem_cons_of_mem _ hp))
      · simp only [if_neg hck]
        exact ih hc (fun p hp => ht p (List.mem_cons_of_mem _ hp))

theorem replAll_cases :
    ∀ (table : List (Char × Char)) (c : Char),
      replAll table c = c ∨ ∃ p ∈ table, replAll table c = p.2 := by
  intro table
  induction table with
  | nil => intro c; exact Or.inl rfl
  | cons kv rest ih =>
      obtain ⟨k, v⟩ := kv
      intro c
      by_cases hck : c = k
      · have : replAll ((k, v) :: rest) c = replAll rest v := by
          simp [replAll, if_pos hck]
        rw [this]
        rcases ih v with h | ⟨p, hp, h⟩
        · exact Or.inr ⟨(k, v), List.mem_cons_self _ _, h⟩
        · exact Or.inr ⟨p, List.mem_cons_of_mem _ hp, h⟩
      · have : replAll ((k, v) :: rest) c = replAll rest c := by
          simp [replAll, if_neg hck]
        rw [this]
        rcases ih c with h | ⟨p, hp, h⟩
        · exact Or.inl h
        · exact Or.inr ⟨p, List.mem_cons_of_mem _ hp, h⟩

theorem replAll_idem {table : List (Char × Char)}
    (hT : ∀ p ∈ table, ∀ q ∈ table, p.2 ≠ q.1) (c : Char) :
    replAll table (replAll table c) = replAll table c := by
  induction table generalizing c with
  | nil => rfl
  | cons kv rest ih =>
      obtain ⟨k, v⟩ := kv
      have hmem : (k, v) ∈ (k, v) :: rest := List.mem_cons_self _ _
      have hT' : ∀ p ∈ rest, ∀ q ∈ rest, p.2 ≠ q.1 := fun p hp q hq =>
        hT p (List.mem_cons_of_mem _ hp) q (List.mem_cons_of_mem _ hq)
      by_cases hck : c = k
      · have hv : ∀ p ∈ rest, v ≠ p.1 := fun p hp =>
          hT (k, v) hmem p (List.mem_cons_of_mem _ hp)
        have hvk : v ≠ k := hT (k, v) hmem (k, v) hmem
        simp only [replAll, if_pos hck, replAll_nochange hv, if_neg hvk]
      · have hd : replAll rest c ≠ k := by
          rcases replAll_cases rest c with h | ⟨p, hp, h⟩
          · rw [h]; exact hck
          · rw [h]; exact hT p (List.mem_cons_of_mem _ hp) (k, v) hmem
        simp only [replAll, if_neg hck, if_neg hd]
        exact ih hT' c

theorem replAll_eq_tableMap {table : List (Char × Char)}
    (hT : ∀ p ∈ table, ∀ q ∈ table, p.2 ≠ q.1) (c : Char) :
    replAll table c = tableMap table c := by
  induction table generalizing c with
  | nil => rfl
  | cons kv rest ih =>
      obtain ⟨k, v⟩ := kv
      have hmem : (k, v) ∈ (k, v) :: rest := List.mem_cons_self _ _
      have hT' : ∀ p ∈ rest, ∀ q ∈ rest, p.2 ≠ q.1 := fun p hp q hq =>
        hT p (List.mem_cons_of_mem _ hp) q (List.mem_cons_of_mem _ hq)
      by_cases hck : c = k
      · subst hck
        have hv : ∀ p ∈ rest, v ≠ p.1 := fun p hp =>
          hT (c, v) hmem p (List.mem_cons_of_mem _ hp)
        have hfind : List.find? (fun p => p.1 = c) ((c, v) :: rest) = some (c, v) :=
          List.find?_cons_of_pos _ (by simp)
        have hstep : replAll ((c, v) :: rest) c = replAll rest v := by
          simp [replAll]
        rw [hstep, replAll_nochange hv]
        simp only [tableMap, hfind]
      · have hkc : ¬ k = c := fun h => hck h.symm
        have hfind : List.find? (fun p => p.1 = c) ((k, v) :: rest) =
            List.find? (fun p => p.1 = c) rest :=
          List.find?_cons_of_neg _ (by simpa using hkc)
        have hstep : replAll ((k, v) :: rest) c = replAll rest c := by
          simp [replAll, if_neg hck]
        rw [hstep, ih hT' c]
        simp only [tableMap, hfind]

/-! ## Lemmas about splitting and joining -/

theorem mem_splitAux_nonspace :
    ∀ (l : List Char) (t : List Char), t ∈ splitAux l → ∀ c ∈ t, isSpacePy c = false := by
  intro l
  induction l with
  | nil => intro t ht; simp [splitAux] at ht
  | cons a as ih =>
      intro t ht c hc
      have ht' : t ∈ splitStep a (splitAux as) := ht
      by_cases ha : isSpacePy a
      · simp only [splitStep, if_pos ha] at ht'
        rcases List.mem_cons.mp ht' with h | h
        · subst h; simp at hc
        · exact ih t h c hc
      · simp only [splitStep, if_neg ha] at ht'
        cases hsa : splitAux as with
        | nil =>
            rw [hsa] at ht'
            simp only [List.mem_singleton] at ht'
            subst ht'
            simp only [List.mem_singleton] at hc
            subst hc
            simpa using ha
        | cons t0 ts =>
            rw [hsa] at ht'
            rcases List.mem_cons.mp ht' with h | h
            · subst h
              rcases List.mem_cons.mp hc with h | h
              · subst h; simpa using ha
              · exact ih t0 (by rw [hsa]; exact List.mem_cons_self _ _) c h
            · exact ih t (by rw [hsa]; exact List.mem_cons_of_mem _ h) c hc

theorem splitAux_append_space (rest : List Char) :
    ∀ t : List Char, (∀ c ∈ t, isSpacePy c = false) →
      splitAux (t ++ ' ' :: rest) = t :: splitAux rest := by
  intro t
  induction t with
  | nil =>
      intro _
      simp [splitAux, splitStep, isSpacePy]
  | cons a as ih =>
      intro h
      have ha : isSpacePy a = false := h a (List.mem_cons_self _ _)
      have has : ∀ c ∈ as, isSpacePy c = false := fun c hc => h c (List.mem_cons_of_mem _ hc)
      have : splitAux ((a :: as) ++ ' ' :: rest) = splitStep a (splitAux (as ++ ' ' :: rest)) := rfl
      rw [this, ih has]
      simp [splitStep, ha]

theorem splitAux_token :
    ∀ t : List Char, t ≠ [] → (∀ c ∈ t, isSpacePy c = false) → splitAux t = [t] := by
  intro t
  induction t with
  | nil => intro h; exact absurd rfl h
  | cons a as ih =>
      intro _ h
      have ha : isSpacePy a = false := h a (List.mem_cons_self _ _)
      have has : ∀ c ∈ as, isSpacePy c = false := fun c hc => h c (List.mem_cons_of_mem _ hc)
      cases hys : as with
      | nil => simp [splitAux, splitStep, ha]
      | cons b bs =>
          subst hys
          have hstep : splitAux (a :: b :: bs) = splitStep a (splitAux (b :: bs)) := rfl
          rw [hstep, ih (by simp) has]
          simp [splitStep, ha]

theorem pySplit_joinSpace :
    ∀ ts : List (List Char), (∀ t ∈ ts, t ≠ []) →
      (∀ t ∈ ts, ∀ c ∈ t, isSpacePy c = false) →
      pySplit (joinSpace ts) = ts
  | [] => by intro _ _; rfl
  | [t] => by
      intro h1 h2
      have ht : t ≠ [] := h1 t (List.mem_singleton_self t)
      have hs : splitAux (joinSpace [t]) = [t] :=
        splitAux_token t ht (h2 t (List.mem_singleton_self t))
      simp [pySplit, hs, ht]
  | t :: t₂ :: ts' => by
      intro h1 h2
      have ht : t ≠ [] := h1 t (List.mem_cons_self _ _)
      have htc : ∀ c ∈ t, isSpacePy c = false := h2 t (List.mem_cons_self _ _)
      have hrest1 : ∀ u ∈ t₂ :: ts', u ≠ [] := fun u hu => h1 u (List.mem_cons_of_mem _ hu)
      have hrest2 : ∀ u ∈ t₂ :: ts', ∀ c ∈ u, isSpacePy c = false := fun u hu =>
        h2 u (List.mem_cons_of_mem _ hu)
      have hjoin : joinSpace (t :: t₂ :: ts') = t ++ ' ' :: joinSpace (t₂ :: ts') := rfl
      have ih := pySplit_joinSpace (t₂ :: ts') hrest1 hrest2
      show List.filter (fun u => decide (u ≠ [])) (splitAux (joinSpace (t :: t₂ :: ts'))) =
        t :: t₂ :: ts'
      rw [hjoin, splitAux_append_space _ t htc,
        List.filter_cons_of_pos (by simpa using ht)]
      exact congrArg (t :: ·) ih

theorem mem_joinSpace :
    ∀ (ts : List (List Char)) (c : Char), c ∈ joinSpace ts → c = ' ' ∨ ∃ t ∈ ts, c ∈ t
  | [] => by intro c hc; simp [joinSpace] at hc
  | [t] => by
      intro c hc
      exact Or.inr ⟨t, List.mem_singleton_self t, hc⟩
  | t :: t₂ :: ts' => by
      intro c hc
      have : joinSpace (t :: t₂ :: ts') = t ++ ' ' :: joinSpace (t₂ :: ts') := rfl
      rw [this] at hc
      rcases List.mem_append.mp hc with h | h
      · exact Or.inr ⟨t, List.mem_cons_self _ _, h⟩
      · rcases List.mem_cons.mp h with h | h
        · exact Or.inl h
        · rcases mem_joinSpace (t₂ :: ts') c h with h | ⟨u, hu, hcu⟩
          · exact Or.inl h
          · exact Or.inr ⟨u, List.mem_cons_of_mem _ hu, hcu⟩

theorem map_joinSpace (f : Char → Char) (hf : f ' ' = ' ') :
    ∀ ts : List (List Char), (joinSpace ts).map f = joinSpace (ts.map (List.map f))
  | [] => rfl
  | [t] => rfl
  | t :: t₂ :: ts' => by
      have h1 : joinSpace (t :: t₂ :: ts') = t ++ ' ' :: joinSpace (t₂ :: ts') := rfl
      have h2 : joinSpace ((t :: t₂ :: ts').map (List.map f)) =
          t.map f ++ ' ' :: joinSpace ((t₂ :: ts').map (List.map f)) := by
        simp only [List.map_cons]; rfl
      rw [h1, h2, ← map_joinSpace f hf (t₂ :: ts')]
      simp [hf]

theorem map_id_of_fix {l : List Char} {f : Char → Char}
    (h : ∀ c ∈ l, f c = c) : l.map f = l := by
  induction l with
  | nil => rfl
  | cons a as ih =>
      simp only [List.map_cons, h a (List.mem_cons_self _ _),
        ih (fun c hc => h c (List.mem_cons_of_mem _ hc))]

theorem mem_splitAux_subset :
    ∀ (l : List Char) (t : List Char), t ∈ splitAux l → ∀ c ∈ t, c ∈ l := by
  intro l
  induction l with
  | nil => intro t ht; simp [splitAux] at ht
  | cons a as ih =>
      intro t ht c hc
      have ht' : t ∈ splitStep a (splitAux as) := ht
      by_cases ha : isSpacePy a
      · simp only [splitStep, if_pos ha] at ht'
        rcases List.mem_cons.mp ht' with h | h
        · subst h; simp at hc
        · exact List.mem_cons_of_mem _ (ih t h c hc)
      · simp only [splitStep, if_neg ha] at ht'
        cases hsa : splitAux as with
        | nil =>
            rw [hsa] at ht'
            simp only [List.mem_singleton] at ht'
            subst ht'
            simp only [List.mem_singleton] at hc
            subst hc
            exact List.mem_cons_self _ _
        | cons t0 ts =>
            rw [hsa] at ht'
            rcases List.mem_cons.mp ht' with h | h
            · subst h
              rcases List.mem_cons.mp hc with h | h
              · subst h; exact List.mem_cons_self _ _
              · exact List.mem_cons_of_mem _
                  (ih t0 (by rw [hsa]; exact List.mem_cons_self _ _) c h)
            · exact List.mem_cons_of_mem _
                (ih t (by rw [hsa]; exact List.mem_cons_of_mem _ h) c hc)

theorem mem_pySplit_ne_nil {l : List Char} {t : List Char} (h : t ∈ pySplit l) : t ≠ [] := by
  have := List.of_mem_filter h
  simpa using this

theorem mem_pySplit_splitAux {l : List Char} {t : List Char} (h : t ∈ pySplit l) :
    t ∈ splitAux l := List.mem_of_mem_filter h

theorem map_ext_mem {α β : Type} {l : List α} {f g : α → β}
    (h : ∀ a ∈ l, f a = g a) : l.map f = l.map g := by
  induction l with
  | nil => rfl
  | cons a as ih =>
      simp only [List.map_cons, h a (List.mem_cons_self _ _)]
      rw [ih (fun b hb => h b (List.mem_cons_of_mem _ hb))]

theorem ntCore_fix {l : List Char} : ∀ c ∈ ntCore l, lowerChar c = c := by
  intro c hc
  rcases mem_joinSpace _ c hc with h | ⟨t, ht, hct⟩
  · subst h; rfl
  · have := mem_splitAux_subset _ t (mem_pySplit_splitAux ht) c hct
    rcases List.mem_map.mp this with ⟨c₀, _, h₀⟩
    rw [← h₀]
    exact lowerChar_idem c₀

theorem pySplit_tokens_ne_nil {l : List Char} : ∀ t ∈ pySplit l, t ≠ [] :=
  fun _ ht => mem_pySplit_ne_nil ht

theorem pySplit_tokens_nonspace {l : List Char} :
    ∀ t ∈ pySplit l, ∀ c ∈ t, isSpacePy c = false :=
  fun t ht => mem_splitAux_nonspace l t (mem_pySplit_splitAux ht)

theorem pySplit_ntCore (l : List Char) :
    pySplit (ntCore l) = pySplit (l.map lowerChar) :=
  pySplit_joinSpace _ pySplit_tokens_ne_nil pySplit_tokens_nonspace

theorem ntCore_idem (l : List Char) : ntCore (ntCore l) = ntCore l := by
  have h1 : (ntCore l).map lowerChar = ntCore l := map_id_of_fix ntCore_fix
  show joinSpace (pySplit ((ntCore l).map lowerChar)) = ntCore l
  rw [h1, pySplit_ntCore]
  rfl

/-- Facts about the accent table: targets are lowercase-fixed, non-space,
and never themselves sources. -/
theorem replTable_targets_fixed :
    ∀ p ∈ replTable, lowerChar p.2 = p.2 ∧ isSpacePy p.2 = false := by decide

theorem replTable_targets_not_sources :
    ∀ p ∈ replTable, ∀ q ∈ replTable, p.2 ≠ q.1 := by decide

theorem replAll_replTable_space : replAll replTable ' ' = ' ' := by decide

theorem nnCore_fix {l : List Char} : ∀ c ∈ nnCore l, lowerChar c = c := by
  intro c hc
  rcases List.mem_map.mp hc with ⟨c₀, hc₀, h₀⟩
  rw [← h₀]
  exact replAll_pred (P := fun d => lowerChar d = d) (ntCore_fix c₀ hc₀)
    (fun p hp => (replTable_targets_fixed p hp).1)

theorem nnCore_idem (l : List Char) : nnCore (nnCore l) = nnCore l := by
  have hRspace : replAll replTable ' ' = ' ' := replAll_replTable_space
  have hT := pySplit_ntCore l
  -- shape of nnCore l as a join of replaced tokens
  have hshape : nnCore l =
      joinSpace ((pySplit (l.map lowerChar)).map (List.map (replAll replTable))) := by
    show (joinSpace (pySplit (l.map lowerChar))).map (replAll replTable) = _
    exact map_joinSpace _ hRspace _
  have hlower : (nnCore l).map lowerChar = nnCore l := map_id_of_fix nnCore_fix
  have htok1 : ∀ t ∈ (pySplit (l.map lowerChar)).map (List.map (replAll replTable)),
      t ≠ [] := by
    intro t ht
    rcases List.mem_map.mp ht with ⟨t₀, ht₀, h₀⟩
    rw [← h₀]
    simp only [ne_eq, List.map_eq_nil_iff]
    exact mem_pySplit_ne_nil ht₀
  have htok2 : ∀ t ∈ (pySplit (l.map lowerChar)).map (List.map (replAll replTable)),
      ∀ c ∈ t, isSpacePy c = false := by
    intro t ht c hc
    rcases List.mem_map.mp ht with ⟨t₀, ht₀, h₀⟩
    rw [← h₀] at hc
    rcases List.mem_map.mp hc with ⟨c₀, hc₀, hc₀e⟩
    rw [← hc₀e]
    exact replAll_pred (P := fun d => isSpacePy d = false)
      (pySplit_tokens_nonspace t₀ ht₀ c₀ hc₀)
      (fun p hp => (replTable_targets_fixed p hp).2)
  have hsplit : pySplit (nnCore l) =
      (pySplit (l.map lowerChar)).map (List.map (replAll replTable)) := by
    rw [hshape]
    exact pySplit_joinSpace _ htok1 htok2
  show (ntCore (nnCore l)).map (replAll replTable) = nnCore l
  have hnt : ntCore (nnCore l) = nnCore l := by
    show joinSpace (pySplit ((nnCore l).map lowerChar)) = nnCore l
    rw [hlower, hsplit, ← hshape]
  rw [hnt]
  exact map_id_of_fix (by
    intro c hc
    rcases List.mem_map.mp hc with ⟨c₀, _, h₀⟩
    rw [← h₀]
    exact replAll_idem replTable_targets_not_sources c₀)

/-! ## Claim C10: the normalizers are idempotent -/

theorem normalize_cnpj_idem (x : Option String) :
    normalize_cnpj (some (normalize_cnpj x)) = normalize_cnpj x := by
  have main : ∀ l : List Char,
      normalize_cnpj (some (String.mk (l.filter isDigitPy))) =
        String.mk (l.filter isDigitPy) := by
    intro l
    by_cases h0 : String.mk (l.filter isDigitPy) = ""
    · rw [normalize_cnpj, if_pos h0, h0]
    · rw [normalize_cnpj, if_neg h0]
      show String.mk ((l.filter isDigitPy).filter isDigitPy) = _
      rw [List.filter_eq_self.mpr (fun a ha => List.of_mem_filter ha)]
  match x with
  | none => rfl
  | some s =>
      by_cases hs : s = ""
      · subst hs; rfl
      · have hrw : normalize_cnpj (some s) = String.mk (s.data.filter isDigitPy) := by
          rw [normalize_cnpj, if_neg hs]
        rw [hrw]
        exact main s.data

theorem normalize_text_idem (x : Option String) :
    normalize_text (some (normalize_text x)) = normalize_text x := by
  have main : ∀ l : List Char,
      normalize_text (some (String.mk (ntCore l))) = String.mk (ntCore l) := by
    intro l
    by_cases h0 : String.mk (ntCore l) = ""
    · rw [normalize_text, if_pos h0, h0]
    · rw [normalize_text, if_neg h0]
      show String.mk (ntCore (ntCore l)) = _
      rw [ntCore_idem]
  match x with
  | none => rfl
  | some s =>
      by_cases hs : s = ""
      · subst hs; rfl
      · have hrw : normalize_text (some s) = String.mk (ntCore s.data) := by
          rw [normalize_text, if_neg hs]
          rfl
        rw [hrw]
        exact main s.data

theorem normalize_name_idem (x : Option String) :
    normalize_name (some (normalize_name x)) = normalize_name x := by
  have main : ∀ l : List Char,
      normalize_name (some (String.mk (nnCore l))) = String.mk (nnCore l) := by
    intro l
    by_cases h0 : String.mk (nnCore l) = ""
    · rw [normalize_name, if_pos h0, h0]
    · rw [normalize_name, if_neg h0]
      show String.mk (nnCore (nnCore l)) = _
      rw [nnCore_idem]
  match x with
  | none => rfl
  | some s =>
      by_cases hs : s = ""
      · subst hs; rfl
      · have hrw : normalize_name (some s) = String.mk (nnCore s.data) := by
          rw [normalize_name, if_neg hs]
          rfl
        rw [hrw]
        exact main s.data

/-- Claim C8, counterexample: at the input "à" the source `_normalize_name`
returns "a" (its table also contains à→a), while applying exactly the
spec's 12-entry table to `_normalize_text`'s output leaves "à" unchanged,
so the claim as stated is false. -/
theorem C8_counterexample :
    normalize_name (some "à") ≠ normalize_name_by_table specAccentTableClaim (some "à") := by
  decide

/-- Claim C8 (amended): for every input string, `_normalize_name` equals
`_normalize_text` with exactly the characters of the fixed table
á→a, à→a, ã→a, â→a, é→e, ê→e, í→i, ó→o, ô→o, õ→o, ú→u, ü→u, ç→c replaced
by their unaccented ASCII equivalents and no other character altered
(the claim's table amended with the entry à→a present in the source). -/
theorem C8_normalize_name_eq_amended_table (x : Option String) :
    normalize_name x = normalize_name_by_table specAccentTableAmended x := by
  have htab : specAccentTableAmended = replTable := rfl
  have hpt : ∀ c, replAll replTable c = tableMap specAccentTableAmended c := by
    intro c
    rw [htab]
    exact replAll_eq_tableMap replTable_targets_not_sources c
  match x with
  | none => rfl
  | some s =>
      by_cases hs : s = ""
      · subst hs; rfl
      · have hL : normalize_name (some s) =
            String.mk ((ntCore s.data).map (replAll replTable)) := by
          rw [normalize_name, if_neg hs]
          rfl
        have hnt : normalize_text (some s) = String.mk (ntCore s.data) := by
          rw [normalize_text, if_neg hs]
          rfl
        have hR : normalize_name_by_table specAccentTableAmended (some s) =
            String.mk ((ntCore s.data).map (tableMap specAccentTableAmended)) := by
          rw [normalize_name_by_table, hnt]
        rw [hL, hR]
        exact congrArg String.mk (map_ext_mem (fun c _ => hpt c))

/-- Claim C10: each normalizer is idempotent — `_normalize_cnpj`,
`_normalize_text` and `_normalize_name` all return their own output
unchanged when applied a second time, so already-canonical values
compare unchanged. -/
theorem C10_normalizers_idempotent (x : Option String) :
    normalize_cnpj (some (normalize_cnpj x)) = normalize_cnpj x ∧
    normalize_text (some (normalize_text x)) = normalize_text x ∧
    normalize_name (some (normalize_name x)) = normalize_name x :=
  ⟨normalize_cnpj_idem x, normalize_text_idem x, normalize_name_idem x⟩

/-! ## Claim C1: the decision combinator -/

/-- Claim C1: `make_decision_node` decides REPROVADO exactly when some
finding has severity BLOCKER (APROVADO otherwise), and returns
`confidence = clamp(documents_available / 3 - 0.1 * finding_count, 0, 1)`,
which always lies in [0, 1]; `documents_available` is at most 3. -/
theorem C1_make_decision_node (contrato : Option ContratoSocialData)
    (cartao : Option CartaoCNPJData) (certidao : Option CertidaoNegativaFederalData)
    (inconsistencies : Option (List Inconsistency)) :
    ((make_decision contrato cartao certidao inconsistencies).1 =
        AnalysisDecision.REPROVADO ↔
      ∃ inc ∈ inconsistencies.getD [], inc.severity = InconsistencySeverity.BLOCKER) ∧
    (make_decision contrato cartao certidao inconsistencies).2 =
      max 0 (min 1 ((docsAvailable contrato cartao certidao : ℚ) / 3 -
        (1 / 10) * ((inconsistencies.getD []).length : ℚ))) ∧
    docsAvailable contrato cartao certidao ≤ 3 ∧
    0 ≤ (make_decision contrato cartao certidao inconsistencies).2 ∧
    (make_decision contrato cartao certidao inconsistencies).2 ≤ 1 := by
  refine ⟨?_, ?_, ?_, ?_, ?_⟩
  · cases hb : (inconsistencies.getD []).any
        (fun inc => decide (inc.severity = InconsistencySeverity.BLOCKER)) with
    | true =>
        have hd : (make_decision contrato cartao certidao inconsistencies).1 =
            AnalysisDecision.REPROVADO := by
          simp [make_decision, hb]
        rw [hd]
        simp only [List.any_eq_true, decide_eq_true_eq] at hb
        exact iff_of_true rfl hb
    | false =>
        have hd : (make_decision contrato cartao certidao inconsistencies).1 =
            AnalysisDecision.APROVADO := by
          simp [make_decision, hb]
        rw [hd]
        have hnot : ¬ ∃ inc ∈ inconsistencies.getD [],
            inc.severity = InconsistencySeverity.BLOCKER := by
          rw [List.any_eq_false] at hb
          rintro ⟨inc, hm, hsev⟩
          exact hb inc hm (by simp [hsev])
        exact iff_of_false (by simp) hnot
  · show max 0 (min 1 (_ - ((inconsistencies.getD []).length : ℚ) * (1 / 10))) = _
    rw [mul_comm]
  · unfold docsAvailable
    split_ifs <;> omega
  · exact le_max_left _ _
  · exact max_le (by norm_num) (min_le_left _ _)

/-! ## Claim C9: job-creation validation -/

/-- Claim C9 counterexample: a request with an empty (but present) company
name and one document is accepted by the validator, not rejected. -/
theorem C9_counterexample :
    validateAnalysisCreate ⟨some "", some ⟨"contrato.pdf"⟩, none, none⟩ =
      Except.ok ⟨"", some ⟨"contrato.pdf"⟩, none, none⟩ := by
  rfl

/-- Claim C9 (amended): a job-creation request is rejected by validation,
before any job is created, when it supplies zero documents or omits the
company-name field; an empty company-name string is accepted; a request
with the company-name field present and at least one of the three typed
document uploads is accepted. -/
theorem C9_validation (raw : AnalysisCreateRaw) :
    (raw.company_name = none →
      validateAnalysisCreate raw = Except.error "Field required") ∧
    (∀ n, raw.company_name = some n →
      ((∃ inp, validateAnalysisCreate raw = Except.ok inp) ↔
        raw.contrato_social ≠ none ∨ raw.cartao_cnpj ≠ none ∨
          raw.certidao_negativa ≠ none)) ∧
    (∀ n, raw.company_name = some n →
      raw.contrato_social = none → raw.cartao_cnpj = none →
      raw.certidao_negativa = none →
      validateAnalysisCreate raw =
        Except.error "At least one document must be provided.") := by
  obtain ⟨cn, cs, cc, cz⟩ := raw
  cases cn <;> cases cs <;> cases cc <;> cases cz <;>
    simp [validateAnalysisCreate]

/-- Claim C9 witness: a concrete request with a company name and a single
contrato-social upload is accepted. -/
theorem C9_witness :
    ∃ inp, validateAnalysisCreate
      ⟨some "ACME LTDA", some ⟨"contrato.pdf"⟩, none, none⟩ = Except.ok inp :=
  ((C9_validation ⟨some "ACME LTDA", some ⟨"contrato.pdf"⟩, none, none⟩).2.1
    "ACME LTDA" rfl).mpr (by decide)

/-! ## Claim C2: failure handling of the run -/

theorem dictGet?_dictInsert_ne {d : List (String × String)} {j k v : String}
    (hjk : j ≠ k) : dictGet? (dictInsert d j v) k = dictGet? d k := by
  unfold dictInsert
  by_cases h : d.any (fun p => p.1 = j)
  · rw [if_pos h]
    clear h
    induction d with
    | nil => rfl
    | cons a as ih =>
        by_cases ha : a.1 = k
        · have hga : (if a.1 = j then (j, v) else a) = a := by
            rw [if_neg (by rw [ha]; exact fun hh => hjk hh.symm)]
          show dictGet? ((if a.1 = j then (j, v) else a) ::
            as.map (fun p => if p.1 = j then (j, v) else p)) k = _
          rw [hga]
          unfold dictGet?
          rw [List.find?_cons_of_pos _ (by simpa using ha),
            List.find?_cons_of_pos _ (by simpa using ha)]
        · have hga : (if a.1 = j then (j, v) else a).1 ≠ k := by
            by_cases haj : a.1 = j
            · rw [if_pos haj]; exact hjk
            · rw [if_neg haj]; exact ha
          show dictGet? ((if a.1 = j then (j, v) else a) ::
            as.map (fun p => if p.1 = j then (j, v) else p)) k = _
          unfold dictGet?
          rw [List.find?_cons_of_neg _ (by simpa using hga),
            List.find?_cons_of_neg _ (by simpa using ha)]
          exact ih
  · rw [if_neg h]
    clear h
    induction d with
    | nil =>
        unfold dictGet?
        rw [List.nil_append,
          List.find?_cons_of_neg _ (by simpa using hjk),
          List.find?_nil]
    | cons a as ih =>
        by_cases ha : a.1 = k
        · unfold dictGet?
          rw [List.cons_append, List.find?_cons_of_pos _ (by simpa using ha),
            List.find?_cons_of_pos _ (by simpa using ha)]
        · unfold dictGet?
          rw [List.cons_append, List.find?_cons_of_neg _ (by simpa using ha),
            List.find?_cons_of_neg _ (by simpa using ha)]
          exact ih

theorem dictGet?_foldl_of_not_mem (tail : List (String × String)) (k : String)
    (h : ∀ p ∈ tail, p.1 ≠ k) :
    ∀ d : List (String × String),
      dictGet? (tail.foldl (fun d p => dictInsert d p.1 p.2) d) k = dictGet? d k := by
  induction tail with
  | nil => intro d; rfl
  | cons a as ih =>
      intro d
      show dictGet? (as.foldl (fun d p => dictInsert d p.1 p.2) (dictInsert d a.1 a.2)) k =
        dictGet? d k
      rw [ih (fun p hp => h p (List.mem_cons_of_mem _ hp)) _,
        dictGet?_dictInsert_ne (h a (List.mem_cons_self _ _))]

theorem failErrorDetails_code (e : Exc)
    (h : e.isApplicationError = true → ∀ p ∈ e.appDetails, p.1 ≠ "error_code") :
    dictGet? (failErrorDetails e) "error_code" = some (errorCodeOf e) := by
  have hbase : dictGet? [("error_type", e.typeName), ("error_code", errorCodeOf e)]
      "error_code" = some (errorCodeOf e) := by
    unfold dictGet?
    rw [List.find?_cons_of_neg _ (by simp),
      List.find?_cons_of_pos _ (by simp)]
    rfl
  have hfold : failErrorDetails e =
      (if e.isApplicationError then e.appDetails else []).foldl
        (fun d p => dictInsert d p.1 p.2)
        [("error_type", e.typeName), ("error_code", errorCodeOf e)] := by
    unfold failErrorDetails dictOf
    rw [List.cons_append, List.cons_append, List.nil_append, List.foldl_cons,
      List.foldl_cons]
    congr 1
  rw [hfold]
  cases happ : e.isApplicationError with
  | false =>
      rw [if_neg (by simp [happ])]
      exact hbase
  | true =>
      rw [if_pos (by simp [happ])]
      rw [dictGet?_foldl_of_not_mem e.appDetails "error_code" (h happ) _]
      exact hbase

/-- Claim C2 counterexample: for an ApplicationError whose own `details`
dict binds the error_code key, the `**error_details` unpacking shadows the
declared code, so the FAILED job's error details carry the shadowing value
rather than the exception's declared code. -/
theorem C2_counterexample :
    ((analyzeDocumentsHandle "job-1" (some pendingJob) (Except.error shadowExc) 7).1.map
      (fun j => j.error_details)) = [none, some (failErrorDetails shadowExc)] ∧
    shadowExc.isApplicationError = true ∧
    shadowExc.appCode = "declared_code" ∧
    dictGet? (failErrorDetails shadowExc) "error_code" = some "shadow" ∧
    dictGet? (failErrorDetails shadowExc) "error_code" ≠ some shadowExc.appCode := by
  decide

/-- Claim C2 (amended): a missing job makes `handle` propagate the
not-found error with no job state committed; any exception raised from the
RUNNING transition onward does not propagate — the job is committed as
FAILED with the error message, `finished_at`, and error details whose
error_code entry is the exception's declared code for an ApplicationError
(provided its own details do not bind the error_code key, which would
shadow it) and the exception's type name otherwise. -/
theorem C2_failure_handling (jobId : String) (lookup : Option AnalysisJob)
    (pipeline : Except Exc CrossResult) (t : Nat) :
    (lookup = none →
      analyzeDocumentsHandle jobId lookup pipeline t =
        ([], Except.error (analysisJobNotFound jobId))) ∧
    (∀ job e, lookup = some job → pipeline = Except.error e →
      (e.isApplicationError = true → ∀ p ∈ e.appDetails, p.1 ≠ "error_code") →
      ∃ j2, analyzeDocumentsHandle jobId lookup pipeline t =
          ([markJobRunning job t, j2],
            Except.ok (RunSummary.failed jobId "FAILED" e.message)) ∧
        j2.status = AnalysisStatus.FAILED ∧
        j2.error_message = some e.message ∧
        j2.error_details = some (failErrorDetails e) ∧
        dictGet? (failErrorDetails e) "error_code" = some (errorCodeOf e) ∧
        (e.isApplicationError = true → errorCodeOf e = e.appCode) ∧
        (e.isApplicationError = false → errorCodeOf e = e.typeName) ∧
        j2.finished_at = some t) := by
  constructor
  · intro h; subst h; rfl
  · intro job e hl hp hdet
    subst hl
    subst hp
    exact ⟨markJobFailed (markJobRunning job t) e t, rfl, rfl, rfl, rfl,
      failErrorDetails_code e hdet,
      fun ha => by simp [errorCodeOf, ha],
      fun ha => by simp [errorCodeOf, ha],
      rfl⟩

/-- Claim C2 witness: the not-found branch at a concrete missing job, and
the catch-all branch at a concrete ValueError raised by the pipeline. -/
theorem C2_witness :
    (analyzeDocumentsHandle "job-1" none (Except.error plainExc) 1 =
      ([], Except.error (analysisJobNotFound "job-1"))) ∧
    ∃ j2, analyzeDocumentsHandle "job-1" (some pendingJob) (Except.error plainExc) 1 =
        ([markJobRunning pendingJob 1, j2],
          Except.ok (RunSummary.failed "job-1" "FAILED" plainExc.message)) ∧
      j2.status = AnalysisStatus.FAILED ∧
      j2.error_message = some plainExc.message ∧
      j2.error_details = some (failErrorDetails plainExc) ∧
      dictGet? (failErrorDetails plainExc) "error_code" = some (errorCodeOf plainExc) ∧
      (plainExc.isApplicationError = true → errorCodeOf plainExc = plainExc.appCode) ∧
      (plainExc.isApplicationError = false → errorCodeOf plainExc = plainExc.typeName) ∧
      j2.finished_at = some 1 :=
  ⟨(C2_failure_handling "job-1" none (Except.error plainExc) 1).1 rfl,
   (C2_failure_handling "job-1" (some pendingJob) (Except.error plainExc) 1).2
     pendingJob plainExc rfl rfl (by decide)⟩

/-- Claim C3: starting from a freshly created job, every committed state
sequence of a run follows PENDING, RUNNING, then exactly one terminal
state, and in every state the run reaches, `decision` is present iff the
status is SUCCEEDED and the error fields are present iff it is FAILED. -/
theorem C3_status_monotonic (jobId : String) (job : AnalysisJob)
    (pipeline : Except Exc CrossResult) (t : Nat) (hp : PristineJob job) :
    List.Chain' (fun a b => allowedTransition a.status b.status)
      (job :: (analyzeDocumentsHandle jobId (some job) pipeline t).1) ∧
    ∀ s ∈ job :: (analyzeDocumentsHandle jobId (some job) pipeline t).1,
      (s.decision ≠ none ↔ s.status = AnalysisStatus.SUCCEEDED) ∧
      ((s.error_message ≠ none ∨ s.error_details ≠ none) ↔
        s.status = AnalysisStatus.FAILED) := by
  obtain ⟨h1, h2, h3, h4, h5⟩ := hp
  cases pipeline with
  | ok r =>
      refine ⟨?_, ?_⟩
      · simp [analyzeDocumentsHandle, markJobRunning, markJobSucceeded,
          List.chain'_cons, allowedTransition, h1]
      · intro s hs
        simp only [analyzeDocumentsHandle, List.mem_cons, List.mem_singleton,
          List.not_mem_nil, or_false] at hs
        rcases hs with hs | hs | hs <;> subst hs <;>
          simp [markJobRunning, markJobSucceeded, h1, h2, h3, h4]
  | error e =>
      refine ⟨?_, ?_⟩
      · simp [analyzeDocumentsHandle, markJobRunning, markJobFailed,
          List.chain'_cons, allowedTransition, h1]
      · intro s hs
        simp only [analyzeDocumentsHandle, List.mem_cons, List.mem_singleton,
          List.not_mem_nil, or_false] at hs
        rcases hs with hs | hs | hs <;> subst hs <;>
          simp [markJobRunning, markJobFailed, h1, h2, h3, h4]

/-- Claim C3 witness: the successful run of a concrete fresh job. -/
theorem C3_witness :
    List.Chain' (fun a b : AnalysisJob => allowedTransition a.status b.status)
      (pendingJob :: (analyzeDocumentsHandle "job-1" (some pendingJob)
        (Except.ok ⟨AnalysisDecision.APROVADO⟩) 1).1) ∧
    ∀ s ∈ pendingJob :: (analyzeDocumentsHandle "job-1" (some pendingJob)
        (Except.ok ⟨AnalysisDecision.APROVADO⟩) 1).1,
      (s.decision ≠ none ↔ s.status = AnalysisStatus.SUCCEEDED) ∧
      ((s.error_message ≠ none ∨ s.error_details ≠ none) ↔
        s.status = AnalysisStatus.FAILED) :=
  C3_status_monotonic "job-1" pendingJob (Except.ok ⟨AnalysisDecision.APROVADO⟩) 1
    (by decide)

/-! ## Segment lemmas about the rule outputs -/

theorem mem_pairwiseMismatch {entries : List (String × String)}
    {mk : String → String → String → String → Inconsistency} {f : Inconsistency}
    (hf : f ∈ pairwiseMismatch entries mk) :
    ∃ rd rv dv v, f = mk rd rv dv v := by
  unfold pairwiseMismatch at hf
  by_cases h2 : 2 ≤ entries.length
  · rw [if_pos h2] at hf
    match entries, hf with
    | (rd, rv) :: rest, hf =>
        rcases List.mem_filterMap.mp hf with ⟨p, _, heq⟩
        by_cases hne : p.2 ≠ rv
        · rw [if_pos hne] at heq
          exact ⟨rd, rv, p.1, p.2, (Option.some.inj heq).symm⟩
        · rw [if_neg hne] at heq
          cases heq
  · rw [if_neg h2] at hf
    cases hf

theorem mem_certificateExpiredFindings {certidao : Option CertidaoNegativaFederalData}
    {ref : PyDate} {f : Inconsistency} (hf : f ∈ certificateExpiredFindings certidao ref) :
    ∃ dv, f = mkCertificateExpired dv := by
  unfold certificateExpiredFindings at hf
  rcases certidao with _ | cert
  · exact absurd hf (List.not_mem_nil f)
  have hf2 : f ∈ (match cert.data_validade with
      | some dv => if dateLt dv ref then [mkCertificateExpired dv] else []
      | none => []) := hf
  rcases hdv : cert.data_validade with _ | dv
  · rw [hdv] at hf2
    exact absurd hf2 (List.not_mem_nil f)
  · rw [hdv] at hf2
    have hf3 : f ∈ (if dateLt dv ref then [mkCertificateExpired dv] else []) := hf2
    by_cases hlt : dateLt dv ref
    · rw [if_pos hlt] at hf3
      exact ⟨dv, (List.mem_singleton.mp hf3)⟩
    · rw [if_neg hlt] at hf3
      exact absurd hf3 (List.not_mem_nil f)

theorem mem_certStaleFindings {certidao : Option CertidaoNegativaFederalData}
    {cutoff : PyDate} {f : Inconsistency} (hf : f ∈ certStaleFindings certidao cutoff) :
    ∃ de, f = mkCertStale de := by
  unfold certStaleFindings at hf
  rcases certidao with _ | cert
  · exact absurd hf (List.not_mem_nil f)
  have hf2 : f ∈ (match cert.data_emissao with
      | some de => if dateLt de cutoff then [mkCertStale de] else []
      | none => []) := hf
  rcases hde : cert.data_emissao with _ | de
  · rw [hde] at hf2
    exact absurd hf2 (List.not_mem_nil f)
  · rw [hde] at hf2
    have hf3 : f ∈ (if dateLt de cutoff then [mkCertStale de] else []) := hf2
    by_cases hlt : dateLt de cutoff
    · rw [if_pos hlt] at hf3
      exact ⟨de, (List.mem_singleton.mp hf3)⟩
    · rw [if_neg hlt] at hf3
      exact absurd hf3 (List.not_mem_nil f)

theorem mem_cardStaleFindings {cartao : Option CartaoCNPJData}
    {cutoff : PyDate} {f : Inconsistency} (hf : f ∈ cardStaleFindings cartao cutoff) :
    ∃ dd, f = mkCardStale dd := by
  unfold cardStaleFindings at hf
  rcases cartao with _ | card
  · exact absurd hf (List.not_mem_nil f)
  have hf2 : f ∈ (match card.data_situacao_cadastral with
      | some dd => if dateLt dd cutoff then [mkCardStale dd] else []
      | none => []) := hf
  rcases hdd : card.data_situacao_cadastral with _ | dd
  · rw [hdd] at hf2
    exact absurd hf2 (List.not_mem_nil f)
  · rw [hdd] at hf2
    have hf3 : f ∈ (if dateLt dd cutoff then [mkCardStale dd] else []) := hf2
    by_cases hlt : dateLt dd cutoff
    · rw [if_pos hlt] at hf3
      exact ⟨dd, (List.mem_singleton.mp hf3)⟩
    · rw [if_neg hlt] at hf3
      exact absurd hf3 (List.not_mem_nil f)

theorem mem_enderecoFindings {contrato : Option ContratoSocialData}
    {cartao : Option CartaoCNPJData} {f : Inconsistency}
    (hf : f ∈ enderecoFindings contrato cartao) :
    ∃ a b c d, f = mkEnderecoMismatch a b c d := by
  unfold enderecoFindings at hf
  rcases contrato with _ | c
  · exact absurd hf (List.not_mem_nil f)
  rcases cartao with _ | k
  · exact absurd hf (List.not_mem_nil f)
  have hf2 : f ∈ (match c.sede, k.endereco_estabelecimento with
      | some sede, some endereco =>
          if normalize_text sede.cidade ≠ "" ∧ normalize_text endereco.municipio ≠ "" then
            if normalize_text sede.cidade ≠ normalize_text endereco.municipio ∨
                normalize_text sede.uf ≠ normalize_text endereco.uf then
              [mkEnderecoMismatch (normalize_text sede.cidade) (normalize_text sede.uf)
                (normalize_text endereco.municipio) (normalize_text endereco.uf)]
            else []
          else []
      | _, _ => []) := hf
  rcases hs : c.sede with _ | sede
  · rw [hs] at hf2
    exact absurd hf2 (List.not_mem_nil f)
  rcases he : k.endereco_estabelecimento with _ | endereco
  · rw [hs, he] at hf2
    exact absurd hf2 (List.not_mem_nil f)
  rw [hs, he] at hf2
  have hf3 : f ∈
      (if normalize_text sede.cidade ≠ "" ∧ normalize_text endereco.municipio ≠ "" then
        if normalize_text sede.cidade ≠ normalize_text endereco.municipio ∨
            normalize_text sede.uf ≠ normalize_text endereco.uf then
          [mkEnderecoMismatch (normalize_text sede.cidade) (normalize_text sede.uf)
            (normalize_text endereco.municipio) (normalize_text endereco.uf)]
        else []
      else []) := hf2
  split at hf3
  · split at hf3
    · exact ⟨_, _, _, _, List.mem_singleton.mp hf3⟩
    · exact absurd hf3 (List.not_mem_nil f)
  · exact absurd hf3 (List.not_mem_nil f)

/-- Full characterization of the partner-ID findings: one per pair of
dict entries with equal normalized names and differing normalized ids. -/
theorem mem_socioCpfFindings {contrato : Option ContratoSocialData}
    {cartao : Option CartaoCNPJData} {f : Inconsistency} :
    f ∈ socioCpfFindings contrato cartao ↔
      ∃ c k, contrato = some c ∧ cartao = some k ∧ c.socios ≠ [] ∧ k.qsa ≠ [] ∧
        ∃ nc cc cq, (nc, cc) ∈ contratoSociosDict c ∧ (nc, cq) ∈ qsaSociosDict k ∧
          cc ≠ cq ∧ f = mkSocioCpfMismatch (origName c.socios nc) cc cq := by
  constructor
  · intro hf
    unfold socioCpfFindings at hf
    rcases contrato with _ | c
    · exact absurd hf (List.not_mem_nil f)
    rcases cartao with _ | k
    · exact absurd hf (List.not_mem_nil f)
    have hf2 : f ∈ (if c.socios ≠ [] ∧ k.qsa ≠ [] then
        (contratoSociosDict c).flatMap (fun pc =>
          (qsaSociosDict k).filterMap (fun pq =>
            if pc.1 = pq.1 then
              if pc.2 ≠ pq.2 then
                some (mkSocioCpfMismatch (origName c.socios pc.1) pc.2 pq.2)
              else none
            else none))
      else []) := hf
    clear hf
    by_cases hg : c.socios ≠ [] ∧ k.qsa ≠ []
    · rw [if_pos hg] at hf2
      rcases List.mem_flatMap.mp hf2 with ⟨pc, hpc, hin⟩
      rcases List.mem_filterMap.mp hin with ⟨pq, hpq, heq⟩
      by_cases h1 : pc.1 = pq.1
      · rw [if_pos h1] at heq
        by_cases hne : pc.2 ≠ pq.2
        · rw [if_pos hne] at heq
          refine ⟨c, k, rfl, rfl, hg.1, hg.2, pc.1, pc.2, pq.2, hpc, ?_, hne,
            (Option.some.inj heq).symm⟩
          rw [h1]
          exact hpq
        · rw [if_neg hne] at heq
          cases heq
      · rw [if_neg h1] at heq
        cases heq
    · rw [if_neg hg] at hf2
      exact absurd hf2 (List.not_mem_nil f)
  · rintro ⟨c, k, rfl, rfl, hcs, hks, nc, cc, cq, hpc, hpq, hne, rfl⟩
    show mkSocioCpfMismatch (origName c.socios nc) cc cq ∈
      (if c.socios ≠ [] ∧ k.qsa ≠ [] then
        (contratoSociosDict c).flatMap (fun pc =>
          (qsaSociosDict k).filterMap (fun pq =>
            if pc.1 = pq.1 then
              if pc.2 ≠ pq.2 then
                some (mkSocioCpfMismatch (origName c.socios pc.1) pc.2 pq.2)
              else none
            else none))
      else [])
    rw [if_pos ⟨hcs, hks⟩]
    exact List.mem_flatMap.mpr ⟨(nc, cc), hpc,
      List.mem_filterMap.mpr ⟨(nc, cq), hpq, by simp [hne]⟩⟩

/-! ## Date lemmas for the staleness boundary -/

theorem dateLt_irrefl (d : PyDate) : ¬ dateLt d d := by
  unfold dateLt
  omega

theorem prevDay_lt {d : PyDate} (h1 : 1 ≤ d.year) : dateLt (prevDay d) d := by
  unfold prevDay dateLt
  split_ifs with hd hm <;> simp <;> omega

theorem daysInMonth_ge (y m : Nat) : 28 ≤ daysInMonth y m := by
  unfold daysInMonth
  split_ifs <;> omega

theorem validDate_subSixMonths {d : PyDate} (h : ValidDate d) (hy : 2 ≤ d.year) :
    ValidDate (subSixMonths d) := by
  obtain ⟨hy1, hm1, hm2, hd1, hd2⟩ := h
  by_cases h7 : 7 ≤ d.month
  · have hs : subSixMonths d =
        ⟨d.year, d.month - 6, min d.day (daysInMonth d.year (d.month - 6))⟩ := by
      simp [subSixMonths, h7]
    rw [hs]
    refine ⟨?_, ?_, ?_, ?_, ?_⟩
    · show 1 ≤ d.year
      omega
    · show 1 ≤ d.month - 6
      omega
    · show d.month - 6 ≤ 12
      omega
    · show 1 ≤ min d.day (daysInMonth d.year (d.month - 6))
      exact le_min hd1 (le_trans (by norm_num) (daysInMonth_ge _ _))
    · show min d.day (daysInMonth d.year (d.month - 6)) ≤ daysInMonth d.year (d.month - 6)
      exact min_le_right _ _
  · have hs : subSixMonths d =
        ⟨d.year - 1, d.month + 6, min d.day (daysInMonth (d.year - 1) (d.month + 6))⟩ := by
      simp [subSixMonths, h7]
    rw [hs]
    refine ⟨?_, ?_, ?_, ?_, ?_⟩
    · show 1 ≤ d.year - 1
      omega
    · show 1 ≤ d.month + 6
      omega
    · show d.month + 6 ≤ 12
      omega
    · show 1 ≤ min d.day (daysInMonth (d.year - 1) (d.month + 6))
      exact le_min hd1 (le_trans (by norm_num) (daysInMonth_ge _ _))
    · show min d.day (daysInMonth (d.year - 1) (d.month + 6)) ≤
        daysInMonth (d.year - 1) (d.month + 6)
      exact min_le_right _ _

/-! ## Claim C4: the six-month staleness boundary -/

/-- Claim C4: the staleness cutoff is `reference_date` minus six calendar
months (e.g. 2025-06-15 gives 2024-12-15); a certificate issuance date or
registration-card status date exactly equal to the cutoff never yields a
`document_older_than_6_months` finding on that document, one day earlier
always does, with severity BLOCKER for the certificate and WARN for the
card. -/
theorem C4_staleness_boundary (contrato : Option ContratoSocialData)
    (cartao : Option CartaoCNPJData) (certidao : Option CertidaoNegativaFederalData)
    (reference_date : PyDate) (hV : ValidDate reference_date)
    (hY : 2 ≤ reference_date.year) :
    subSixMonths ⟨2025, 6, 15⟩ = ⟨2024, 12, 15⟩ ∧
    (∀ z, certidao = some z → z.data_emissao = some (subSixMonths reference_date) →
      ∀ f ∈ deterministic_checks contrato cartao certidao reference_date,
        ¬(f.code = "document_older_than_6_months" ∧
          f.documents = ["CERTIDAO_NEGATIVA"])) ∧
    (∀ k, cartao = some k →
      k.data_situacao_cadastral = some (subSixMonths reference_date) →
      ∀ f ∈ deterministic_checks contrato cartao certidao reference_date,
        ¬(f.code = "document_older_than_6_months" ∧ f.documents = ["CARTAO_CNPJ"])) ∧
    (∀ z, certidao = some z →
      z.data_emissao = some (prevDay (subSixMonths reference_date)) →
      ∃ f ∈ deterministic_checks contrato cartao certidao reference_date,
        f.code = "document_older_than_6_months" ∧
          f.documents = ["CERTIDAO_NEGATIVA"] ∧
          f.severity = InconsistencySeverity.BLOCKER) ∧
    (∀ k, cartao = some k →
      k.data_situacao_cadastral = some (prevDay (subSixMonths reference_date)) →
      ∃ f ∈ deterministic_checks contrato cartao certidao reference_date,
        f.code = "document_older_than_6_months" ∧ f.documents = ["CARTAO_CNPJ"] ∧
          f.severity = InconsistencySeverity.WARN) := by
  have hcut : ValidDate (subSixMonths reference_date) := validDate_subSixMonths hV hY
  have hlt : dateLt (prevDay (subSixMonths reference_date)) (subSixMonths reference_date) :=
    prevDay_lt hcut.1
  refine ⟨by decide, ?_, ?_, ?_, ?_⟩
  · intro z hz hde f hf hcontra
    obtain ⟨hcode, hdocs⟩ := hcontra
    simp only [deterministic_checks, List.mem_append] at hf
    rcases hf with ((((((hf | hf) | hf) | hf) | hf) | hf) | hf)
    · obtain ⟨rd, rv, dv, v, rfl⟩ := mem_pairwiseMismatch hf
      simp [mkCnpjMismatch] at hcode
    · obtain ⟨rd, rv, dv, v, rfl⟩ := mem_pairwiseMismatch hf
      simp [mkRazaoMismatch] at hcode
    · obtain ⟨dv, rfl⟩ := mem_certificateExpiredFindings hf
      simp [mkCertificateExpired] at hcode
    · have hnil : certStaleFindings certidao (subSixMonths reference_date) = [] := by
        rw [hz]
        show (match z.data_emissao with
          | some de => if dateLt de (subSixMonths reference_date)
              then [mkCertStale de] else []
          | none => []) = []
        rw [hde]
        show (if dateLt (subSixMonths reference_date) (subSixMonths reference_date)
            then [mkCertStale (subSixMonths reference_date)] else []) = []
        rw [if_neg (dateLt_irrefl _)]
      rw [hnil] at hf
      exact absurd hf (List.not_mem_nil f)
    · obtain ⟨dd, rfl⟩ := mem_cardStaleFindings hf
      simp [mkCardStale] at hdocs
    · obtain ⟨a, b, c, d, rfl⟩ := mem_enderecoFindings hf
      simp [mkEnderecoMismatch] at hcode
    · obtain ⟨c, k, _, _, _, _, nc, cc, cq, _, _, _, rfl⟩ :=
        mem_socioCpfFindings.mp hf
      simp [mkSocioCpfMismatch] at hcode
  · intro k hk hdd f hf hcontra
    obtain ⟨hcode, hdocs⟩ := hcontra
    simp only [deterministic_checks, List.mem_append] at hf
    rcases hf with ((((((hf | hf) | hf) | hf) | hf) | hf) | hf)
    · obtain ⟨rd, rv, dv, v, rfl⟩ := mem_pairwiseMismatch hf
      simp [mkCnpjMismatch] at hcode
    · obtain ⟨rd, rv, dv, v, rfl⟩ := mem_pairwiseMismatch hf
      simp [mkRazaoMismatch] at hcode
    · obtain ⟨dv, rfl⟩ := mem_certificateExpiredFindings hf
      simp [mkCertificateExpired] at hcode
    · obtain ⟨de, rfl⟩ := mem_certStaleFindings hf
      simp [mkCertStale] at hdocs
    · have hnil : cardStaleFindings cartao (subSixMonths reference_date) = [] := by
        rw [hk]
        show (match k.data_situacao_cadastral with
          | some dd => if dateLt dd (subSixMonths reference_date)
              then [mkCardStale dd] else []
          | none => []) = []
        rw [hdd]
        show (if dateLt (subSixMonths reference_date) (subSixMonths reference_date)
            then [mkCardStale (subSixMonths reference_date)] else []) = []
        rw [if_neg (dateLt_irrefl _)]
      rw [hnil] at hf
      exact absurd hf (List.not_mem_nil f)
    · obtain ⟨a, b, c, d, rfl⟩ := mem_enderecoFindings hf
      simp [mkEnderecoMismatch] at hcode
    · obtain ⟨c, k2, _, _, _, _, nc, cc, cq, _, _, _, rfl⟩ :=
        mem_socioCpfFindings.mp hf
      simp [mkSocioCpfMismatch] at hcode
  · intro z hz hde
    refine ⟨mkCertStale (prevDay (subSixMonths reference_date)), ?_, rfl, rfl, rfl⟩
    simp only [deterministic_checks, List.mem_append]
    refine Or.inl (Or.inl (Or.inl (Or.inr ?_)))
    rw [hz]
    show mkCertStale (prevDay (subSixMonths reference_date)) ∈
      (match z.data_emissao with
        | some de => if dateLt de (subSixMonths reference_date)
            then [mkCertStale de] else []
        | none => [])
    rw [hde]
    show mkCertStale (prevDay (subSixMonths reference_date)) ∈
      (if dateLt (prevDay (subSixMonths reference_date)) (subSixMonths reference_date)
        then [mkCertStale (prevDay (subSixMonths reference_date))] else [])
    rw [if_pos hlt]
    exact List.mem_singleton_self _
  · intro k hk hdd
    refine ⟨mkCardStale (prevDay (subSixMonths reference_date)), ?_, rfl, rfl, rfl⟩
    simp only [deterministic_checks, List.mem_append]
    refine Or.inl (Or.inl (Or.inr ?_))
    rw [hk]
    show mkCardStale (prevDay (subSixMonths reference_date)) ∈
      (match k.data_situacao_cadastral with
        | some dd => if dateLt dd (subSixMonths reference_date)
            then [mkCardStale dd] else []
        | none => [])
    rw [hdd]
    show mkCardStale (prevDay (subSixMonths reference_date)) ∈
      (if dateLt (prevDay (subSixMonths reference_date)) (subSixMonths reference_date)
        then [mkCardStale (prevDay (subSixMonths reference_date))] else [])
    rw [if_pos hlt]
    exact List.mem_singleton_self _

/-- Claim C4 witness: reference date 2025-06-15, cutoff 2024-12-15; a
certificate issued 2024-12-14 yields the BLOCKER staleness finding. -/
theorem C4_witness :
    ValidDate ⟨2025, 6, 15⟩ ∧ 2 ≤ (⟨2025, 6, 15⟩ : PyDate).year ∧
    ∃ f ∈ deterministic_checks none none
        (some ⟨none, none, some ⟨2024, 12, 14⟩, none⟩) ⟨2025, 6, 15⟩,
      f.code = "document_older_than_6_months" ∧
        f.documents = ["CERTIDAO_NEGATIVA"] ∧
        f.severity = InconsistencySeverity.BLOCKER :=
  ⟨by decide, by decide,
   (C4_staleness_boundary none none (some ⟨none, none, some ⟨2024, 12, 14⟩, none⟩)
     ⟨2025, 6, 15⟩ (by decide) (by decide)).2.2.2.1
     ⟨none, none, some ⟨2024, 12, 14⟩, none⟩ rfl (by decide)⟩

/-! ## Claim C5: the tax-ID rule -/

theorem mem_cnpjEntries {contrato : Option ContratoSocialData}
    {cartao : Option CartaoCNPJData} {certidao : Option CertidaoNegativaFederalData}
    {p : String × String} :
    p ∈ cnpjEntries contrato cartao certidao ↔
      (∃ c, contrato = some c ∧ truthy c.cnpj = true ∧
        p = ("CONTRATO_SOCIAL", normalize_cnpj c.cnpj)) ∨
      (∃ k, cartao = some k ∧ truthy k.cnpj = true ∧
        p = ("CARTAO_CNPJ", normalize_cnpj k.cnpj)) ∨
      (∃ z, certidao = some z ∧ truthy z.cnpj = true ∧
        p = ("CERTIDAO_NEGATIVA", normalize_cnpj z.cnpj)) := by
  unfold cnpjEntries
  rcases contrato with _ | c <;> rcases cartao with _ | k <;> rcases certidao with _ | z <;>
    simp [List.mem_append] <;> split_ifs <;> simp_all

/-- Each document label occurs at most once among the collected entries,
so the label pair of a finding determines the compared values. -/
theorem cnpjEntries_key_unique {contrato : Option ContratoSocialData}
    {cartao : Option CartaoCNPJData} {certidao : Option CertidaoNegativaFederalData}
    {p q : String × String} (hp : p ∈ cnpjEntries contrato cartao certidao)
    (hq : q ∈ cnpjEntries contrato cartao certidao) (h : p.1 = q.1) : p.2 = q.2 := by
  rcases mem_cnpjEntries.mp hp with ⟨c, hc, _, hpe⟩ | ⟨k, hk, _, hpe⟩ | ⟨z, hz, _, hpe⟩ <;>
    rcases mem_cnpjEntries.mp hq with ⟨c2, hc2, _, hqe⟩ | ⟨k2, hk2, _, hqe⟩ |
      ⟨z2, hz2, _, hqe⟩ <;>
    subst hpe <;> subst hqe <;> simp_all

theorem mem_pairwiseMismatch_strong {entries : List (String × String)}
    {mk : String → String → String → String → Inconsistency} {f : Inconsistency}
    (hf : f ∈ pairwiseMismatch entries mk) :
    ∃ rd rv rest, entries = (rd, rv) :: rest ∧
      ∃ dp ∈ rest, dp.2 ≠ rv ∧ f = mk rd rv dp.1 dp.2 := by
  unfold pairwiseMismatch at hf
  by_cases h2 : 2 ≤ entries.length
  · rw [if_pos h2] at hf
    match entries, hf with
    | (rd, rv) :: rest, hf =>
        rcases List.mem_filterMap.mp hf with ⟨dp, hdp, heq⟩
        by_cases hne : dp.2 ≠ rv
        · rw [if_pos hne] at heq
          exact ⟨rd, rv, rest, rfl, dp, hdp, hne, (Option.some.inj heq).symm⟩
        · rw [if_neg hne] at heq
          cases heq
  · rw [if_neg h2] at hf
    cases hf

theorem pairwiseMismatch_eq (entries : List (String × String))
    (mk : String → String → String → String → Inconsistency) :
    pairwiseMismatch entries mk =
      (match entries with
       | [] => []
       | [_] => []
       | (refDoc, refVal) :: rest =>
           rest.filterMap (fun p =>
             if p.2 ≠ refVal then some (mk refDoc refVal p.1 p.2) else none)) := by
  match entries with
  | [] => rfl
  | [p] =>
      unfold pairwiseMismatch
      rw [if_neg (by simp)]
  | ⟨rd, rv⟩ :: q :: rest =>
      unfold pairwiseMismatch
      rw [if_pos (by simp [List.length])]

/-- Claim C5: the tax-ID rule collects `(document_type, normalize_id(tax_id))`
for every supplied document with a non-empty tax ID, in the fixed priority
order CONTRATO_SOCIAL, CARTAO_CNPJ, CERTIDAO_NEGATIVA; with at least two
entries it emits one BLOCKER `cnpj_mismatch` per subsequent entry whose
normalized value differs from the first (reference) entry, with
`documents = [reference type, this type]`; two documents whose tax IDs are
equal after digit-stripping never produce a finding naming that pair. -/
theorem C5_cnpj_rule (contrato : Option ContratoSocialData)
    (cartao : Option CartaoCNPJData) (certidao : Option CertidaoNegativaFederalData)
    (reference_date : PyDate) :
    (∀ p, p ∈ cnpjEntries contrato cartao certidao ↔
      (∃ c, contrato = some c ∧ truthy c.cnpj = true ∧
        p = ("CONTRATO_SOCIAL", normalize_cnpj c.cnpj)) ∨
      (∃ k, cartao = some k ∧ truthy k.cnpj = true ∧
        p = ("CARTAO_CNPJ", normalize_cnpj k.cnpj)) ∨
      (∃ z, certidao = some z ∧ truthy z.cnpj = true ∧
        p = ("CERTIDAO_NEGATIVA", normalize_cnpj z.cnpj))) ∧
    ((deterministic_checks contrato cartao certidao reference_date).filter
        (fun f => f.code == "cnpj_mismatch") =
      (match cnpjEntries contrato cartao certidao with
       | [] => []
       | [_] => []
       | (refDoc, refVal) :: rest =>
           rest.filterMap (fun p =>
             if p.2 ≠ refVal then some (mkCnpjMismatch refDoc refVal p.1 p.2)
             else none))) ∧
    (∀ f ∈ deterministic_checks contrato cartao certidao reference_date,
      f.code = "cnpj_mismatch" → f.severity = InconsistencySeverity.BLOCKER) ∧
    (∀ p q, p ∈ cnpjEntries contrato cartao certidao →
      q ∈ cnpjEntries contrato cartao certidao → p.2 = q.2 →
      ∀ f ∈ deterministic_checks contrato cartao certidao reference_date,
        f.code = "cnpj_mismatch" → f.documents ≠ [p.1, q.1]) := by
  refine ⟨fun p => mem_cnpjEntries, ?_, ?_, ?_⟩
  · have hsplit : deterministic_checks contrato cartao certidao reference_date =
        pairwiseMismatch (cnpjEntries contrato cartao certidao) mkCnpjMismatch
          ++ pairwiseMismatch (razaoEntries contrato cartao certidao) mkRazaoMismatch
          ++ certificateExpiredFindings certidao reference_date
          ++ certStaleFindings certidao (subSixMonths reference_date)
          ++ cardStaleFindings cartao (subSixMonths reference_date)
          ++ enderecoFindings contrato cartao
          ++ socioCpfFindings contrato cartao := rfl
    have e2 : (pairwiseMismatch (razaoEntries contrato cartao certidao)
        mkRazaoMismatch).filter (fun f => f.code == "cnpj_mismatch") = [] :=
      List.filter_eq_nil_iff.mpr (fun f hf => by
        obtain ⟨rd, rv, dv, v, rfl⟩ := mem_pairwiseMismatch hf
        simp [mkRazaoMismatch])
    have e3 : (certificateExpiredFindings certidao reference_date).filter
        (fun f => f.code == "cnpj_mismatch") = [] :=
      List.filter_eq_nil_iff.mpr (fun f hf => by
        obtain ⟨dv, rfl⟩ := mem_certificateExpiredFindings hf
        simp [mkCertificateExpired])
    have e4 : (certStaleFindings certidao (subSixMonths reference_date)).filter
        (fun f => f.code == "cnpj_mismatch") = [] :=
      List.filter_eq_nil_iff.mpr (fun f hf => by
        obtain ⟨de, rfl⟩ := mem_certStaleFindings hf
        simp [mkCertStale])
    have e5 : (cardStaleFindings cartao (subSixMonths reference_date)).filter
        (fun f => f.code == "cnpj_mismatch") = [] :=
      List.filter_eq_nil_iff.mpr (fun f hf => by
        obtain ⟨dd, rfl⟩ := mem_cardStaleFindings hf
        simp [mkCardStale])
    have e6 : (enderecoFindings contrato cartao).filter
        (fun f => f.code == "cnpj_mismatch") = [] :=
      List.filter_eq_nil_iff.mpr (fun f hf => by
        obtain ⟨a, b, c, d, rfl⟩ := mem_enderecoFindings hf
        simp [mkEnderecoMismatch])
    have e7 : (socioCpfFindings contrato cartao).filter
        (fun f => f.code == "cnpj_mismatch") = [] :=
      List.filter_eq_nil_iff.mpr (fun f hf => by
        obtain ⟨c, k, _, _, _, _, nc, cc, cq, _, _, _, rfl⟩ := mem_socioCpfFindings.mp hf
        simp [mkSocioCpfMismatch])
    have e1 : (pairwiseMismatch (cnpjEntries contrato cartao certidao)
        mkCnpjMismatch).filter (fun f => f.code == "cnpj_mismatch") =
        pairwiseMismatch (cnpjEntries contrato cartao certidao) mkCnpjMismatch :=
      List.filter_eq_self.mpr (fun f hf => by
        obtain ⟨rd, rv, dv, v, rfl⟩ := mem_pairwiseMismatch hf
        simp [mkCnpjMismatch])
    rw [hsplit]
    simp only [List.filter_append]
    rw [e1, e2, e3, e4, e5, e6, e7]
    simp only [List.append_nil]
    exact pairwiseMismatch_eq _ _
  · intro f hf hcode
    simp only [deterministic_checks, List.mem_append] at hf
    rcases hf with ((((((hf | hf) | hf) | hf) | hf) | hf) | hf)
    · obtain ⟨rd, rv, dv, v, rfl⟩ := mem_pairwiseMismatch hf
      rfl
    · obtain ⟨rd, rv, dv, v, rfl⟩ := mem_pairwiseMismatch hf
      simp [mkRazaoMismatch] at hcode
    · obtain ⟨dv, rfl⟩ := mem_certificateExpiredFindings hf
      simp [mkCertificateExpired] at hcode
    · obtain ⟨de, rfl⟩ := mem_certStaleFindings hf
      simp [mkCertStale] at hcode
    · obtain ⟨dd, rfl⟩ := mem_cardStaleFindings hf
      simp [mkCardStale] at hcode
    · obtain ⟨a, b, c, d, rfl⟩ := mem_enderecoFindings hf
      simp [mkEnderecoMismatch] at hcode
    · obtain ⟨c, k, _, _, _, _, nc, cc, cq, _, _, _, rfl⟩ := mem_socioCpfFindings.mp hf
      simp [mkSocioCpfMismatch] at hcode
  · intro p q hp hq hval f hf hcode hdocs
    simp only [deterministic_checks, List.mem_append] at hf
    rcases hf with ((((((hf | hf) | hf) | hf) | hf) | hf) | hf)
    · obtain ⟨rd, rv, rest, hent, dp, hdp, hne, rfl⟩ := mem_pairwiseMismatch_strong hf
      have hd : (mkCnpjMismatch rd rv dp.1 dp.2).documents = [rd, dp.1] := rfl
      rw [hd] at hdocs
      have h1 : rd = p.1 := (List.cons.injEq _ _ _ _ ▸ hdocs).1
      have h2 : dp.1 = q.1 := by
        have := (List.cons.injEq _ _ _ _ ▸ hdocs).2
        exact (List.cons.injEq _ _ _ _ ▸ this).1
      have hrvmem : ((rd, rv) : String × String) ∈ cnpjEntries contrato cartao certidao := by
        rw [hent]; exact List.mem_cons_self _ _
      have hdpmem : dp ∈ cnpjEntries contrato cartao certidao := by
        rw [hent]; exact List.mem_cons_of_mem _ hdp
      have hpv : p.2 = rv := cnpjEntries_key_unique hp hrvmem (by rw [h1])
      have hqv : q.2 = dp.2 := cnpjEntries_key_unique hq hdpmem (by rw [h2])
      exact hne (by rw [← hqv, ← hval, hpv])
    · obtain ⟨rd, rv, dv, v, rfl⟩ := mem_pairwiseMismatch hf
      simp [mkRazaoMismatch] at hcode
    · obtain ⟨dv, rfl⟩ := mem_certificateExpiredFindings hf
      simp [mkCertificateExpired] at hcode
    · obtain ⟨de, rfl⟩ := mem_certStaleFindings hf
      simp [mkCertStale] at hcode
    · obtain ⟨dd, rfl⟩ := mem_cardStaleFindings hf
      simp [mkCardStale] at hcode
    · obtain ⟨a, b, c, d, rfl⟩ := mem_enderecoFindings hf
      simp [mkEnderecoMismatch] at hcode
    · obtain ⟨c, k, _, _, _, _, nc, cc, cq, _, _, _, rfl⟩ := mem_socioCpfFindings.mp hf
      simp [mkSocioCpfMismatch] at hcode

/-- Claim C5 witness: two documents with the same tax ID up to punctuation
produce no `cnpj_mismatch` finding; the pair clause applied at the
concrete entries. -/
theorem C5_witness :
    ((deterministic_checks
        (some ⟨none, some "12.345.678/0001-99", none, []⟩)
        (some ⟨some "12345678000199", none, none, none, []⟩)
        none ⟨2025, 6, 15⟩).filter (fun f => f.code == "cnpj_mismatch") = []) ∧
    (∀ f ∈ deterministic_checks
        (some ⟨none, some "12.345.678/0001-99", none, []⟩)
        (some ⟨some "12345678000199", none, none, none, []⟩)
        none ⟨2025, 6, 15⟩,
      f.code = "cnpj_mismatch" →
        f.documents ≠ ["CONTRATO_SOCIAL", "CARTAO_CNPJ"]) :=
  ⟨((C5_cnpj_rule (some ⟨none, some "12.345.678/0001-99", none, []⟩)
      (some ⟨some "12345678000199", none, none, none, []⟩) none ⟨2025, 6, 15⟩).2.1).trans
      (by decide),
   (C5_cnpj_rule (some ⟨none, some "12.345.678/0001-99", none, []⟩)
      (some ⟨some "12345678000199", none, none, none, []⟩) none ⟨2025, 6, 15⟩).2.2.2
      ("CONTRATO_SOCIAL", "12345678000199") ("CARTAO_CNPJ", "12345678000199")
      (by decide) (by decide) rfl⟩

/-! ## Claim C6: the partner identity-number rule -/

theorem mem_dictInsert {d : List (String × String)} {k v : String}
    {p : String × String} (hp : p ∈ dictInsert d k v) : p.1 = k ∨ p ∈ d := by
  unfold dictInsert at hp
  by_cases h : d.any (fun q => q.1 = k)
  · rw [if_pos h] at hp
    rcases List.mem_map.mp hp with ⟨q, hq, hqe⟩
    by_cases hq1 : q.1 = k
    · rw [if_pos hq1] at hqe
      left
      rw [← hqe]
    · rw [if_neg hq1] at hqe
      right
      rw [← hqe]
      exact hq
  · rw [if_neg h] at hp
    rcases List.mem_append.mp hp with h1 | h1
    · right
      exact h1
    · left
      rw [List.mem_singleton.mp h1]

theorem mem_foldl_dictInsert {ps : List (String × String)} :
    ∀ {d : List (String × String)} {p : String × String},
      p ∈ ps.foldl (fun d p => dictInsert d p.1 p.2) d →
      p ∈ d ∨ ∃ q ∈ ps, q.1 = p.1 := by
  induction ps with
  | nil => intro d p hp; exact Or.inl hp
  | cons a as ih =>
      intro d p hp
      rcases ih hp with h | ⟨q, hq, hqe⟩
      · rcases mem_dictInsert h with h1 | h1
        · exact Or.inr ⟨a, List.mem_cons_self _ _, h1.symm⟩
        · exact Or.inl h1
      · exact Or.inr ⟨q, List.mem_cons_of_mem _ hq, hqe⟩

theorem mem_dictOf_key {ps : List (String × String)} {p : String × String}
    (hp : p ∈ dictOf ps) : ∃ q ∈ ps, q.1 = p.1 := by
  rcases mem_foldl_dictInsert hp with h | h
  · exact absurd h (List.not_mem_nil p)
  · exact h

theorem find?_append_left {α : Type} {p : α → Bool} {l1 l2 : List α} {a : α}
    (h : l1.find? p = some a) : (l1 ++ l2).find? p = some a := by
  induction l1 with
  | nil => cases h
  | cons b bs ih =>
      by_cases hb : p b
      · rw [List.find?_cons_of_pos _ hb] at h
        rw [List.cons_append, List.find?_cons_of_pos _ hb]
        exact h
      · rw [List.find?_cons_of_neg _ hb] at h
        rw [List.cons_append, List.find?_cons_of_neg _ hb]
        exact ih h

theorem flatMap_ext_mem {α β : Type} {l : List α} {f g : α → List β}
    (h : ∀ a ∈ l, f a = g a) : l.flatMap f = l.flatMap g := by
  induction l with
  | nil => rfl
  | cons a as ih =>
      simp only [List.flatMap_cons, h a (List.mem_cons_self _ _)]
      rw [ih (fun b hb => h b (List.mem_cons_of_mem _ hb))]

theorem flatMap_nil_fun {α β : Type} (l : List α) :
    (l.flatMap fun _ => ([] : List β)) = [] := by
  induction l with
  | nil => rfl
  | cons a as ih => simp only [List.flatMap_cons, List.nil_append, ih]

/-- Keys of the articles-side dict always have a matching partner in the
roster, so the original-name lookup never falls off the end. -/
theorem origName_append_of_key {c : ContratoSocialData} {s : Socio} {nc cc : String}
    (hm : (nc, cc) ∈ contratoSociosDict c) :
    origName (c.socios ++ [s]) nc = origName c.socios nc := by
  obtain ⟨q, hq, hqk⟩ := mem_dictOf_key hm
  rcases List.mem_filterMap.mp hq with ⟨socio, hsoc, hsome⟩
  have hnorm : normalize_name (some socio.nome) = nc := by
    by_cases hg : socio.nome ≠ "" ∧ truthy socio.cpf = true
    · rw [if_pos hg] at hsome
      have := Option.some.inj hsome
      rw [← this] at hqk
      exact hqk
    · rw [if_neg hg] at hsome
      cases hsome
  have hfind : c.socios.find? (fun s => normalize_name (some s.nome) = nc) ≠ none := by
    intro hnone
    rw [List.find?_eq_none] at hnone
    exact hnone socio hsoc (by simpa using hnorm)
  rcases hopt : c.socios.find? (fun s => normalize_name (some s.nome) = nc) with _ | a
  · exact absurd hopt hfind
  · unfold origName
    rw [hopt, find?_append_left hopt]

/-- Appending a partner missing the name or the id to the articles roster
leaves the rule's findings unchanged. -/
theorem socioCpf_ignores_contrato (c : ContratoSocialData)
    (cartao : Option CartaoCNPJData) (s : Socio)
    (hs : ¬(s.nome ≠ "" ∧ truthy s.cpf = true)) :
    socioCpfFindings (some {c with socios := c.socios ++ [s]}) cartao =
      socioCpfFindings (some c) cartao := by
  rcases cartao with _ | k
  · rfl
  have hdict : contratoSociosDict {c with socios := c.socios ++ [s]} =
      contratoSociosDict c := by
    unfold contratoSociosDict
    simp only [List.filterMap_append]
    have : List.filterMap (fun socio =>
        if socio.nome ≠ "" ∧ truthy socio.cpf = true then
          some (normalize_name (some socio.nome), normalize_cpf socio.cpf)
        else none) [s] = [] := by
      simp only [List.filterMap_cons, List.filterMap_nil]
      rw [if_neg hs]
    rw [this, List.append_nil]
  by_cases hq : k.qsa ≠ []
  · by_cases hcs : c.socios ≠ []
    · have hl : socioCpfFindings (some {c with socios := c.socios ++ [s]}) (some k) =
          (contratoSociosDict c).flatMap (fun pc =>
            (qsaSociosDict k).filterMap (fun pq =>
              if pc.1 = pq.1 then
                if pc.2 ≠ pq.2 then
                  some (mkSocioCpfMismatch (origName (c.socios ++ [s]) pc.1) pc.2 pq.2)
                else none
              else none)) := by
        show (if (c.socios ++ [s]) ≠ [] ∧ k.qsa ≠ [] then _ else []) = _
        rw [if_pos ⟨by simp, hq⟩, hdict]
      have hr : socioCpfFindings (some c) (some k) =
          (contratoSociosDict c).flatMap (fun pc =>
            (qsaSociosDict k).filterMap (fun pq =>
              if pc.1 = pq.1 then
                if pc.2 ≠ pq.2 then
                  some (mkSocioCpfMismatch (origName c.socios pc.1) pc.2 pq.2)
                else none
              else none)) := by
        show (if c.socios ≠ [] ∧ k.qsa ≠ [] then _ else []) = _
        rw [if_pos ⟨hcs, hq⟩]
      rw [hl, hr]
      refine flatMap_ext_mem (fun pc hpc => ?_)
      have horig : origName (c.socios ++ [s]) pc.1 = origName c.socios pc.1 :=
        origName_append_of_key (show (pc.1, pc.2) ∈ contratoSociosDict c from hpc)
      rw [horig]
    · have hcs' : c.socios = [] := by
        by_cases h : c.socios = []
        · exact h
        · exact absurd h hcs
      have hdc : contratoSociosDict c = [] := by
        unfold contratoSociosDict
        rw [hcs']
        rfl
      have hl : socioCpfFindings (some {c with socios := c.socios ++ [s]}) (some k) =
          (contratoSociosDict c).flatMap (fun pc =>
            (qsaSociosDict k).filterMap (fun pq =>
              if pc.1 = pq.1 then
                if pc.2 ≠ pq.2 then
                  some (mkSocioCpfMismatch (origName (c.socios ++ [s]) pc.1) pc.2 pq.2)
                else none
              else none)) := by
        show (if (c.socios ++ [s]) ≠ [] ∧ k.qsa ≠ [] then _ else []) = _
        rw [if_pos ⟨by simp, hq⟩, hdict]
      have hr : socioCpfFindings (some c) (some k) = [] := by
        show (if c.socios ≠ [] ∧ k.qsa ≠ [] then _ else []) = []
        rw [if_neg (by intro hh; exact hcs hh.1)]
      rw [hl, hr, hdc]
      rfl
  · have hq' : k.qsa = [] := by
      by_cases h : k.qsa = []
      · exact h
      · exact absurd h hq
    have hl : socioCpfFindings (some {c with socios := c.socios ++ [s]}) (some k) = [] := by
      show (if (c.socios ++ [s]) ≠ [] ∧ k.qsa ≠ [] then _ else []) = []
      rw [if_neg (by intro hh; exact hh.2 hq')]
    have hr : socioCpfFindings (some c) (some k) = [] := by
      show (if c.socios ≠ [] ∧ k.qsa ≠ [] then _ else []) = []
      rw [if_neg (by intro hh; exact hh.2 hq')]
    rw [hl, hr]

/-- Appending a roster entry missing the name or the id to the card's QSA
leaves the rule's findings unchanged. -/
theorem socioCpf_ignores_qsa (contrato : Option ContratoSocialData)
    (k : CartaoCNPJData) (s : SocioQSA)
    (hs : ¬(s.nome ≠ "" ∧ truthy s.cpf_cnpj = true)) :
    socioCpfFindings contrato (some {k with qsa := k.qsa ++ [s]}) =
      socioCpfFindings contrato (some k) := by
  rcases contrato with _ | c
  · rfl
  have hdict : qsaSociosDict {k with qsa := k.qsa ++ [s]} = qsaSociosDict k := by
    unfold qsaSociosDict
    simp only [List.filterMap_append]
    have : List.filterMap (fun socio =>
        if socio.nome ≠ "" ∧ truthy socio.cpf_cnpj = true then
          some (normalize_name (some socio.nome), normalize_cpf socio.cpf_cnpj)
        else none) [s] = [] := by
      simp only [List.filterMap_cons, List.filterMap_nil]
      rw [if_neg hs]
    rw [this, List.append_nil]
  by_cases hcs : c.socios ≠ []
  · by_cases hq : k.qsa ≠ []
    · have hl : socioCpfFindings (some c) (some {k with qsa := k.qsa ++ [s]}) =
          (contratoSociosDict c).flatMap (fun pc =>
            (qsaSociosDict k).filterMap (fun pq =>
              if pc.1 = pq.1 then
                if pc.2 ≠ pq.2 then
                  some (mkSocioCpfMismatch (origName c.socios pc.1) pc.2 pq.2)
                else none
              else none)) := by
        show (if c.socios ≠ [] ∧ (k.qsa ++ [s]) ≠ [] then _ else []) = _
        rw [if_pos ⟨hcs, by simp⟩, hdict]
      have hr : socioCpfFindings (some c) (some k) =
          (contratoSociosDict c).flatMap (fun pc =>
            (qsaSociosDict k).filterMap (fun pq =>
              if pc.1 = pq.1 then
                if pc.2 ≠ pq.2 then
                  some (mkSocioCpfMismatch (origName c.socios pc.1) pc.2 pq.2)
                else none
              else none)) := by
        show (if c.socios ≠ [] ∧ k.qsa ≠ [] then _ else []) = _
        rw [if_pos ⟨hcs, hq⟩]
      rw [hl, hr]
    · have hq' : k.qsa = [] := by
        by_cases h : k.qsa = []
        · exact h
        · exact absurd h hq
      have hdq : qsaSociosDict k = [] := by
        unfold qsaSociosDict
        rw [hq']
        rfl
      have hl : socioCpfFindings (some c) (some {k with qsa := k.qsa ++ [s]}) =
          (contratoSociosDict c).flatMap (fun pc =>
            (qsaSociosDict k).filterMap (fun pq =>
              if pc.1 = pq.1 then
                if pc.2 ≠ pq.2 then
                  some (mkSocioCpfMismatch (origName c.socios pc.1) pc.2 pq.2)
                else none
              else none)) := by
        show (if c.socios ≠ [] ∧ (k.qsa ++ [s]) ≠ [] then _ else []) = _
        rw [if_pos ⟨hcs, by simp⟩, hdict]
      have hr : socioCpfFindings (some c) (some k) = [] := by
        show (if c.socios ≠ [] ∧ k.qsa ≠ [] then _ else []) = []
        rw [if_neg (by intro hh; exact hh.2 hq')]
      rw [hl, hr, hdq]
      have : ∀ pc ∈ contratoSociosDict c,
          (([] : List (String × String)).filterMap (fun pq =>
            if pc.1 = pq.1 then
              if pc.2 ≠ pq.2 then
                some (mkSocioCpfMismatch (origName c.socios pc.1) pc.2 pq.2)
              else none
            else none)) = ([] : List Inconsistency) := fun pc _ => rfl
      rw [flatMap_ext_mem this, flatMap_nil_fun]
  · have hcs' : c.socios = [] := by
      by_cases h : c.socios = []
      · exact h
      · exact absurd h hcs
    have hl : socioCpfFindings (some c) (some {k with qsa := k.qsa ++ [s]}) = [] := by
      show (if c.socios ≠ [] ∧ (k.qsa ++ [s]) ≠ [] then _ else []) = []
      rw [if_neg (by intro hh; exact hcs hh.1)]
    have hr : socioCpfFindings (some c) (some k) = [] := by
      show (if c.socios ≠ [] ∧ k.qsa ≠ [] then _ else []) = []
      rw [if_neg (by intro hh; exact hcs hh.1)]
    rw [hl, hr]

/-- Claim C6: the partner rule skips a partner missing either field on its
roster, matches rosters by exact equality of normalized names only
("JOÃO CARLOS DA SILVA" matches "João Carlos da Silva"), and the emitted
`socio_cpf_mismatch` BLOCKER findings are exactly the matched-name pairs
with differing normalized ids. -/
theorem C6_socio_rule (contrato : Option ContratoSocialData)
    (cartao : Option CartaoCNPJData) (certidao : Option CertidaoNegativaFederalData)
    (reference_date : PyDate) :
    ((deterministic_checks contrato cartao certidao reference_date).filter
        (fun f => f.code == "socio_cpf_mismatch") = socioCpfFindings contrato cartao) ∧
    (∀ f, f ∈ socioCpfFindings contrato cartao ↔
      ∃ c k, contrato = some c ∧ cartao = some k ∧ c.socios ≠ [] ∧ k.qsa ≠ [] ∧
        ∃ nc cc cq, (nc, cc) ∈ contratoSociosDict c ∧ (nc, cq) ∈ qsaSociosDict k ∧
          cc ≠ cq ∧ f = mkSocioCpfMismatch (origName c.socios nc) cc cq) ∧
    (∀ f ∈ deterministic_checks contrato cartao certidao reference_date,
      f.code = "socio_cpf_mismatch" → f.severity = InconsistencySeverity.BLOCKER) ∧
    (∀ c s, contrato = some c → ¬(s.nome ≠ "" ∧ truthy s.cpf = true) →
      socioCpfFindings (some {c with socios := c.socios ++ [s]}) cartao =
        socioCpfFindings (some c) cartao) ∧
    (∀ k s, cartao = some k → ¬(s.nome ≠ "" ∧ truthy s.cpf_cnpj = true) →
      socioCpfFindings contrato (some {k with qsa := k.qsa ++ [s]}) =
        socioCpfFindings contrato (some k)) ∧
    normalize_name (some "JOÃO CARLOS DA SILVA") =
      normalize_name (some "João Carlos da Silva") := by
  refine ⟨?_, fun f => mem_socioCpfFindings, ?_, ?_, ?_, by decide⟩
  · have hsplit : deterministic_checks contrato cartao certidao reference_date =
        pairwiseMismatch (cnpjEntries contrato cartao certidao) mkCnpjMismatch
          ++ pairwiseMismatch (razaoEntries contrato cartao certidao) mkRazaoMismatch
          ++ certificateExpiredFindings certidao reference_date
          ++ certStaleFindings certidao (subSixMonths reference_date)
          ++ cardStaleFindings cartao (subSixMonths reference_date)
          ++ enderecoFindings contrato cartao
          ++ socioCpfFindings contrato cartao := rfl
    have e1 : (pairwiseMismatch (cnpjEntries contrato cartao certidao)
        mkCnpjMismatch).filter (fun f => f.code == "socio_cpf_mismatch") = [] :=
      List.filter_eq_nil_iff.mpr (fun f hf => by
        obtain ⟨rd, rv, dv, v, rfl⟩ := mem_pairwiseMismatch hf
        simp [mkCnpjMismatch])
    have e2 : (pairwiseMismatch (razaoEntries contrato cartao certidao)
        mkRazaoMismatch).filter (fun f => f.code == "socio_cpf_mismatch") = [] :=
      List.filter_eq_nil_iff.mpr (fun f hf => by
        obtain ⟨rd, rv, dv, v, rfl⟩ := mem_pairwiseMismatch hf
        simp [mkRazaoMismatch])
    have e3 : (certificateExpiredFindings certidao reference_date).filter
        (fun f => f.code == "socio_cpf_mismatch") = [] :=
      List.filter_eq_nil_iff.mpr (fun f hf => by
        obtain ⟨dv, rfl⟩ := mem_certificateExpiredFindings hf
        simp [mkCertificateExpired])
    have e4 : (certStaleFindings certidao (subSixMonths reference_date)).filter
        (fun f => f.code == "socio_cpf_mismatch") = [] :=
      List.filter_eq_nil_iff.mpr (fun f hf => by
        obtain ⟨de, rfl⟩ := mem_certStaleFindings hf
        simp [mkCertStale])
    have e5 : (cardStaleFindings cartao (subSixMonths reference_date)).filter
        (fun f => f.code == "socio_cpf_mismatch") = [] :=
      List.filter_eq_nil_iff.mpr (fun f hf => by
        obtain ⟨dd, rfl⟩ := mem_cardStaleFindings hf
        simp [mkCardStale])
    have e6 : (enderecoFindings contrato cartao).filter
        (fun f => f.code == "socio_cpf_mismatch") = [] :=
      List.filter_eq_nil_iff.mpr (fun f hf => by
        obtain ⟨a, b, c, d, rfl⟩ := mem_enderecoFindings hf
        simp [mkEnderecoMismatch])
    have e7 : (socioCpfFindings contrato cartao).filter
        (fun f => f.code == "socio_cpf_mismatch") = socioCpfFindings contrato cartao :=
      List.filter_eq_self.mpr (fun f hf => by
        obtain ⟨c, k, _, _, _, _, nc, cc, cq, _, _, _, rfl⟩ := mem_socioCpfFindings.mp hf
        simp [mkSocioCpfMismatch])
    rw [hsplit]
    simp only [List.filter_append]
    rw [e1, e2, e3, e4, e5, e6, e7]
    simp only [List.nil_append]
  · intro f hf hcode
    simp only [deterministic_checks, List.mem_append] at hf
    rcases hf with ((((((hf | hf) | hf) | hf) | hf) | hf) | hf)
    · obtain ⟨rd, rv, dv, v, rfl⟩ := mem_pairwiseMismatch hf
      simp [mkCnpjMismatch] at hcode
    · obtain ⟨rd, rv, dv, v, rfl⟩ := mem_pairwiseMismatch hf
      simp [mkRazaoMismatch] at hcode
    · obtain ⟨dv, rfl⟩ := mem_certificateExpiredFindings hf
      simp [mkCertificateExpired] at hcode
    · obtain ⟨de, rfl⟩ := mem_certStaleFindings hf
      simp [mkCertStale] at hcode
    · obtain ⟨dd, rfl⟩ := mem_cardStaleFindings hf
      simp [mkCardStale] at hcode
    · obtain ⟨a, b, c, d, rfl⟩ := mem_enderecoFindings hf
      simp [mkEnderecoMismatch] at hcode
    · obtain ⟨c, k, _, _, _, _, nc, cc, cq, _, _, _, rfl⟩ := mem_socioCpfFindings.mp hf
      rfl
  · intro c s hc hs
    subst hc
    exact socioCpf_ignores_contrato c cartao s hs
  · intro k s hk hs
    subst hk
    exact socioCpf_ignores_qsa contrato k s hs

/-- Claim C6 witness: adding a partner with no id to a concrete articles
roster leaves the partner findings unchanged. -/
theorem C6_witness :
    socioCpfFindings
        (some {(⟨none, none, none, [⟨"João Carlos", some "111.222.333-44"⟩]⟩ :
            ContratoSocialData) with
          socios := [⟨"João Carlos", some "111.222.333-44"⟩] ++ [⟨"Maria", none⟩]})
        (some ⟨none, none, none, none, [⟨"JOÃO CARLOS", some "999.888.777-66"⟩]⟩) =
      socioCpfFindings
        (some ⟨none, none, none, [⟨"João Carlos", some "111.222.333-44"⟩]⟩)
        (some ⟨none, none, none, none, [⟨"JOÃO CARLOS", some "999.888.777-66"⟩]⟩) :=
  (C6_socio_rule
      (some ⟨none, none, none, [⟨"João Carlos", some "111.222.333-44"⟩]⟩)
      (some ⟨none, none, none, none, [⟨"JOÃO CARLOS", some "999.888.777-66"⟩]⟩)
      none ⟨2025, 6, 15⟩).2.2.2.1
    ⟨none, none, none, [⟨"João Carlos", some "111.222.333-44"⟩]⟩
    ⟨"Maria", none⟩ rfl (by decide)

/-! ## Claim C7: content of the partner findings -/

/-- Claim C7 counterexample: a concrete partner pair with punctuated ids
produces one `socio_cpf_mismatch` finding whose values list holds the
normalized digit-only ids, not the raw as-extracted values. -/
theorem C7_counterexample :
    ((deterministic_checks
        (some ⟨none, none, none, [⟨"João", some "123.456.789-00"⟩]⟩)
        (some ⟨none, none, none, none, [⟨"João", some "987.654.321-00"⟩]⟩)
        none ⟨2025, 6, 15⟩).map (fun f => (f.code, f.values))) =
      [("socio_cpf_mismatch", ["12345678900", "98765432100"])] ∧
    (["12345678900", "98765432100"] : List String) ≠
      ["123.456.789-00", "987.654.321-00"] := by
  decide

/-- Claim C7 (amended): every `socio_cpf_mismatch` finding names in its
message the original (non-normalized) partner name — the first partner of
the articles roster whose normalized name matches — and carries the two
divergent ids in normalized (digits-only) form, not raw, in its values
list. -/
theorem C7_socio_finding_content (contrato : Option ContratoSocialData)
    (cartao : Option CartaoCNPJData) (certidao : Option CertidaoNegativaFederalData)
    (reference_date : PyDate) :
    ∀ f ∈ deterministic_checks contrato cartao certidao reference_date,
      f.code = "socio_cpf_mismatch" →
      ∃ c k nc cc cq, contrato = some c ∧ cartao = some k ∧
        (nc, cc) ∈ contratoSociosDict c ∧ (nc, cq) ∈ qsaSociosDict k ∧ cc ≠ cq ∧
        f.message = "CPF divergente para o sócio \x27" ++ origName c.socios nc ++
          "\x27 entre Contrato Social e Cartão CNPJ." ∧
        f.values = [cc, cq] := by
  intro f hf hcode
  simp only [deterministic_checks, List.mem_append] at hf
  rcases hf with ((((((hf | hf) | hf) | hf) | hf) | hf) | hf)
  · obtain ⟨rd, rv, dv, v, rfl⟩ := mem_pairwiseMismatch hf
    simp [mkCnpjMismatch] at hcode
  · obtain ⟨rd, rv, dv, v, rfl⟩ := mem_pairwiseMismatch hf
    simp [mkRazaoMismatch] at hcode
  · obtain ⟨dv, rfl⟩ := mem_certificateExpiredFindings hf
    simp [mkCertificateExpired] at hcode
  · obtain ⟨de, rfl⟩ := mem_certStaleFindings hf
    simp [mkCertStale] at hcode
  · obtain ⟨dd, rfl⟩ := mem_cardStaleFindings hf
    simp [mkCardStale] at hcode
  · obtain ⟨a, b, c, d, rfl⟩ := mem_enderecoFindings hf
    simp [mkEnderecoMismatch] at hcode
  · obtain ⟨c, k, hc, hk, _, _, nc, cc, cq, hm1, hm2, hne, rfl⟩ :=
      mem_socioCpfFindings.mp hf
    exact ⟨c, k, nc, cc, cq, hc, hk, hm1, hm2, hne, rfl, rfl⟩

/-- Claim C7 witness: the amended statement applied at the concrete pair
of rosters of the counterexample. -/
theorem C7_witness :
    ∃ c k nc cc cq,
      (some ⟨none, none, none, [⟨"João", some "123.456.789-00"⟩]⟩ :
        Option ContratoSocialData) = some c ∧
      (some ⟨none, none, none, none, [⟨"João", some "987.654.321-00"⟩]⟩ :
        Option CartaoCNPJData) = some k ∧
      (nc, cc) ∈ contratoSociosDict c ∧ (nc, cq) ∈ qsaSociosDict k ∧ cc ≠ cq ∧
      (mkSocioCpfMismatch "João" "12345678900" "98765432100").message =
        "CPF divergente para o sócio \x27" ++ origName c.socios nc ++
          "\x27 entre Contrato Social e Cartão CNPJ." ∧
      (mkSocioCpfMismatch "João" "12345678900" "98765432100").values = [cc, cq] :=
  C7_socio_finding_content
    (some ⟨none, none, none, [⟨"João", some "123.456.789-00"⟩]⟩)
    (some ⟨none, none, none, none, [⟨"João", some "987.654.321-00"⟩]⟩)
    none ⟨2025, 6, 15⟩
    (mkSocioCpfMismatch "João" "12345678900" "98765432100") (by decide) rfl

end S2P
